import Mathlib

/-!
# Eonix go-extractor: route and model detection

A shallow embedding of `backend/vendor/go-extractor/main.go`.

The program parses one Go file and runs two traversals of the syntax tree:
`extractHTTPHandlers` (route registrations) and `extractGORMModels`
(structs embedding `gorm.Model`), both appending `Node` values to one
`ExtractionResult`.

The syntax tree, the file set and the string helpers come from the Go
standard library (`go/ast`, `go/token`, `strings`, `fmt`); they are modelled
in the namespaces `token`, `ast`, `strings` and `fmt` below.  Everything
outside those namespaces is a translation of a declaration of `main.go`.
-/

/-! ## go/token -/

namespace token

/-- A source position (`token.Pos`, an `int`); `0` is `token.NoPos`. -/
abbrev Pos := Nat

/-- The literal kinds a `BasicLit` can carry (`token.INT` .. `token.STRING`). -/
inductive Token where
  | INT
  | FLOAT
  | IMAG
  | CHAR
  | STRING
deriving DecidableEq, Repr

/-- The part of `token.FileSet` the program uses: `fset.Position(p).Line`. -/
structure FileSet where
  Line : Pos → Nat

/-- A file set for a file whose lines start at the listed positions: the
line of `p` is the number of line starts at or before `p`. -/
def FileSet.ofLineStarts (starts : List Pos) : FileSet :=
  ⟨fun p => (starts.filter (fun o => decide (o ≤ p))).length⟩

/-- The body of an interpreted string literal as `go/scanner` accepts it:
a backslash takes the next character with it, and a double quote or a
newline occurs only after a backslash. -/
def isStringBody : List Char → Bool
  | [] => true
  | [c] => decide (c ≠ '\\' ∧ c ≠ '\"' ∧ c ≠ '\n')
  | c :: d :: rest =>
    if c = '\\' then isStringBody rest
    else if c = '\"' ∨ c = '\n' then false
    else isStringBody (d :: rest)

end token

/-! ## unicode, strings and fmt -/

namespace unicode

/-- The lower-case mappings of the characters outside ASCII, from the simple
lower-case mappings of the Unicode Character Database (version 14.0), the
data Go generates its table `unicode.CaseRanges` from.  An entry
`(lo, hi, stride, target)` maps the characters `lo`, `lo + stride`, ... up to
`hi` to `target`, `target + stride`, ...; stride 2 is a run of alternating
upper-case and lower-case letters. -/
def lowerRanges : List (Nat × Nat × Nat × Nat) :=
  [
    (0x00C0, 0x00D6, 1, 0x00E0), (0x00D8, 0x00DE, 1, 0x00F8), (0x0100, 0x012E, 2, 0x0101),
    (0x0130, 0x0130, 1, 0x0069), (0x0132, 0x0136, 2, 0x0133), (0x0139, 0x0147, 2, 0x013A),
    (0x014A, 0x0176, 2, 0x014B), (0x0178, 0x0178, 1, 0x00FF), (0x0179, 0x017D, 2, 0x017A),
    (0x0181, 0x0181, 1, 0x0253), (0x0182, 0x0184, 2, 0x0183), (0x0186, 0x0186, 1, 0x0254),
    (0x0187, 0x0187, 1, 0x0188), (0x0189, 0x018A, 1, 0x0256), (0x018B, 0x018B, 1, 0x018C),
    (0x018E, 0x018E, 1, 0x01DD), (0x018F, 0x018F, 1, 0x0259), (0x0190, 0x0190, 1, 0x025B),
    (0x0191, 0x0191, 1, 0x0192), (0x0193, 0x0193, 1, 0x0260), (0x0194, 0x0194, 1, 0x0263),
    (0x0196, 0x0196, 1, 0x0269), (0x0197, 0x0197, 1, 0x0268), (0x0198, 0x0198, 1, 0x0199),
    (0x019C, 0x019C, 1, 0x026F), (0x019D, 0x019D, 1, 0x0272), (0x019F, 0x019F, 1, 0x0275),
    (0x01A0, 0x01A4, 2, 0x01A1), (0x01A6, 0x01A6, 1, 0x0280), (0x01A7, 0x01A7, 1, 0x01A8),
    (0x01A9, 0x01A9, 1, 0x0283), (0x01AC, 0x01AC, 1, 0x01AD), (0x01AE, 0x01AE, 1, 0x0288),
    (0x01AF, 0x01AF, 1, 0x01B0), (0x01B1, 0x01B2, 1, 0x028A), (0x01B3, 0x01B5, 2, 0x01B4),
    (0x01B7, 0x01B7, 1, 0x0292), (0x01B8, 0x01B8, 1, 0x01B9), (0x01BC, 0x01BC, 1, 0x01BD),
    (0x01C4, 0x01C4, 1, 0x01C6), (0x01C5, 0x01C5, 1, 0x01C6), (0x01C7, 0x01C7, 1, 0x01C9),
    (0x01C8, 0x01C8, 1, 0x01C9), (0x01CA, 0x01CA, 1, 0x01CC), (0x01CB, 0x01DB, 2, 0x01CC),
    (0x01DE, 0x01EE, 2, 0x01DF), (0x01F1, 0x01F1, 1, 0x01F3), (0x01F2, 0x01F4, 2, 0x01F3),
    (0x01F6, 0x01F6, 1, 0x0195), (0x01F7, 0x01F7, 1, 0x01BF), (0x01F8, 0x021E, 2, 0x01F9),
    (0x0220, 0x0220, 1, 0x019E), (0x0222, 0x0232, 2, 0x0223), (0x023A, 0x023A, 1, 0x2C65),
    (0x023B, 0x023B, 1, 0x023C), (0x023D, 0x023D, 1, 0x019A), (0x023E, 0x023E, 1, 0x2C66),
    (0x0241, 0x0241, 1, 0x0242), (0x0243, 0x0243, 1, 0x0180), (0x0244, 0x0244, 1, 0x0289),
    (0x0245, 0x0245, 1, 0x028C), (0x0246, 0x024E, 2, 0x0247), (0x0370, 0x0372, 2, 0x0371),
    (0x0376, 0x0376, 1, 0x0377), (0x037F, 0x037F, 1, 0x03F3), (0x0386, 0x0386, 1, 0x03AC),
    (0x0388, 0x038A, 1, 0x03AD), (0x038C, 0x038C, 1, 0x03CC), (0x038E, 0x038F, 1, 0x03CD),
    (0x0391, 0x03A1, 1, 0x03B1), (0x03A3, 0x03AB, 1, 0x03C3), (0x03CF, 0x03CF, 1, 0x03D7),
    (0x03D8, 0x03EE, 2, 0x03D9), (0x03F4, 0x03F4, 1, 0x03B8), (0x03F7, 0x03F7, 1, 0x03F8),
    (0x03F9, 0x03F9, 1, 0x03F2), (0x03FA, 0x03FA, 1, 0x03FB), (0x03FD, 0x03FF, 1, 0x037B),
    (0x0400, 0x040F, 1, 0x0450), (0x0410, 0x042F, 1, 0x0430), (0x0460, 0x0480, 2, 0x0461),
    (0x048A, 0x04BE, 2, 0x048B), (0x04C0, 0x04C0, 1, 0x04CF), (0x04C1, 0x04CD, 2, 0x04C2),
    (0x04D0, 0x052E, 2, 0x04D1), (0x0531, 0x0556, 1, 0x0561), (0x10A0, 0x10C5, 1, 0x2D00),
    (0x10C7, 0x10C7, 1, 0x2D27), (0x10CD, 0x10CD, 1, 0x2D2D), (0x13A0, 0x13EF, 1, 0xAB70),
    (0x13F0, 0x13F5, 1, 0x13F8), (0x1C90, 0x1CBA, 1, 0x10D0), (0x1CBD, 0x1CBF, 1, 0x10FD),
    (0x1E00, 0x1E94, 2, 0x1E01), (0x1E9E, 0x1E9E, 1, 0x00DF), (0x1EA0, 0x1EFE, 2, 0x1EA1),
    (0x1F08, 0x1F0F, 1, 0x1F00), (0x1F18, 0x1F1D, 1, 0x1F10), (0x1F28, 0x1F2F, 1, 0x1F20),
    (0x1F38, 0x1F3F, 1, 0x1F30), (0x1F48, 0x1F4D, 1, 0x1F40), (0x1F59, 0x1F5F, 2, 0x1F51),
    (0x1F68, 0x1F6F, 1, 0x1F60), (0x1F88, 0x1F8F, 1, 0x1F80), (0x1F98, 0x1F9F, 1, 0x1F90),
    (0x1FA8, 0x1FAF, 1, 0x1FA0), (0x1FB8, 0x1FB9, 1, 0x1FB0), (0x1FBA, 0x1FBB, 1, 0x1F70),
    (0x1FBC, 0x1FBC, 1, 0x1FB3), (0x1FC8, 0x1FCB, 1, 0x1F72), (0x1FCC, 0x1FCC, 1, 0x1FC3),
    (0x1FD8, 0x1FD9, 1, 0x1FD0), (0x1FDA, 0x1FDB, 1, 0x1F76), (0x1FE8, 0x1FE9, 1, 0x1FE0),
    (0x1FEA, 0x1FEB, 1, 0x1F7A), (0x1FEC, 0x1FEC, 1, 0x1FE5), (0x1FF8, 0x1FF9, 1, 0x1F78),
    (0x1FFA, 0x1FFB, 1, 0x1F7C), (0x1FFC, 0x1FFC, 1, 0x1FF3), (0x2126, 0x2126, 1, 0x03C9),
    (0x212A, 0x212A, 1, 0x006B), (0x212B, 0x212B, 1, 0x00E5), (0x2132, 0x2132, 1, 0x214E),
    (0x2160, 0x216F, 1, 0x2170), (0x2183, 0x2183, 1, 0x2184), (0x24B6, 0x24CF, 1, 0x24D0),
    (0x2C00, 0x2C2F, 1, 0x2C30), (0x2C60, 0x2C60, 1, 0x2C61), (0x2C62, 0x2C62, 1, 0x026B),
    (0x2C63, 0x2C63, 1, 0x1D7D), (0x2C64, 0x2C64, 1, 0x027D), (0x2C67, 0x2C6B, 2, 0x2C68),
    (0x2C6D, 0x2C6D, 1, 0x0251), (0x2C6E, 0x2C6E, 1, 0x0271), (0x2C6F, 0x2C6F, 1, 0x0250),
    (0x2C70, 0x2C70, 1, 0x0252), (0x2C72, 0x2C72, 1, 0x2C73), (0x2C75, 0x2C75, 1, 0x2C76),
    (0x2C7E, 0x2C7F, 1, 0x023F), (0x2C80, 0x2CE2, 2, 0x2C81), (0x2CEB, 0x2CED, 2, 0x2CEC),
    (0x2CF2, 0x2CF2, 1, 0x2CF3), (0xA640, 0xA66C, 2, 0xA641), (0xA680, 0xA69A, 2, 0xA681),
    (0xA722, 0xA72E, 2, 0xA723), (0xA732, 0xA76E, 2, 0xA733), (0xA779, 0xA77B, 2, 0xA77A),
    (0xA77D, 0xA77D, 1, 0x1D79), (0xA77E, 0xA786, 2, 0xA77F), (0xA78B, 0xA78B, 1, 0xA78C),
    (0xA78D, 0xA78D, 1, 0x0265), (0xA790, 0xA792, 2, 0xA791), (0xA796, 0xA7A8, 2, 0xA797),
    (0xA7AA, 0xA7AA, 1, 0x0266), (0xA7AB, 0xA7AB, 1, 0x025C), (0xA7AC, 0xA7AC, 1, 0x0261),
    (0xA7AD, 0xA7AD, 1, 0x026C), (0xA7AE, 0xA7AE, 1, 0x026A), (0xA7B0, 0xA7B0, 1, 0x029E),
    (0xA7B1, 0xA7B1, 1, 0x0287), (0xA7B2, 0xA7B2, 1, 0x029D), (0xA7B3, 0xA7B3, 1, 0xAB53),
    (0xA7B4, 0xA7C2, 2, 0xA7B5), (0xA7C4, 0xA7C4, 1, 0xA794), (0xA7C5, 0xA7C5, 1, 0x0282),
    (0xA7C6, 0xA7C6, 1, 0x1D8E), (0xA7C7, 0xA7C9, 2, 0xA7C8), (0xA7D0, 0xA7D0, 1, 0xA7D1),
    (0xA7D6, 0xA7D8, 2, 0xA7D7), (0xA7F5, 0xA7F5, 1, 0xA7F6), (0xFF21, 0xFF3A, 1, 0xFF41),
    (0x10400, 0x10427, 1, 0x10428), (0x104B0, 0x104D3, 1, 0x104D8), (0x10570, 0x1057A, 1, 0x10597),
    (0x1057C, 0x1058A, 1, 0x105A3), (0x1058C, 0x10592, 1, 0x105B3), (0x10594, 0x10595, 1, 0x105BB),
    (0x10C80, 0x10CB2, 1, 0x10CC0), (0x118A0, 0x118BF, 1, 0x118C0), (0x16E40, 0x16E5F, 1, 0x16E60),
    (0x1E900, 0x1E921, 1, 0x1E922)]

/-- The lower-case mapping of the code point `c` in a list of ranges; a code
point in no range is mapped to itself. -/
def lookupLower (c : Nat) : List (Nat × Nat × Nat × Nat) → Nat
  | [] => c
  | (lo, hi, stride, target) :: rest =>
    if lo ≤ c ∧ c ≤ hi ∧ (c - lo) % stride = 0 then target + (c - lo)
    else lookupLower c rest

/-- The Go call `unicode.ToLower(r)`: an ASCII character is lowered when it
is one of `A`..`Z`, any other character by the case table. -/
def ToLower (r : Char) : Char :=
  if r.toNat ≤ 127 then
    if 65 ≤ r.toNat ∧ r.toNat ≤ 90 then Char.ofNat (r.toNat + 32) else r
  else Char.ofNat (lookupLower r.toNat lowerRanges)

end unicode

namespace strings

/-- The Go call `strings.Trim(s, cutset)`: `s` without its leading and trailing
characters that occur in `cutset`. -/
def Trim (s cutset : String) : String :=
  String.mk (((s.data.dropWhile (fun c => cutset.data.contains c)).reverse.dropWhile
    (fun c => cutset.data.contains c)).reverse)

/-- The Go call `strings.ToLower(s)`: every character of `s` mapped by
`unicode.ToLower`. -/
def ToLower (s : String) : String :=
  String.mk (s.data.map unicode.ToLower)

end strings

namespace fmt

/-- The verb `%d` of `fmt.Sprintf` on a non-negative `int`. -/
def itoa (n : Nat) : String := Nat.repr n

end fmt

/-! ## go/ast -/

namespace ast

/-- The Go type `*ast.Ident`. -/
structure Ident where
  NamePos : token.Pos
  Name : String
deriving DecidableEq, Repr

mutual
/-- The Go interface `ast.Node`: the node kinds the program discriminates on,
with the fields it or `ast.Walk` reads, and `Other` for every other kind
(`File`, declarations, statements, `BinaryExpr`, `MapType`, `FuncLit`, ...)
with its children in `ast.Walk` order.  Comment groups are left out: they
hold neither calls nor type declarations. -/
inductive Node where
  | Ident (x : Ident)
  | BasicLit (ValuePos : token.Pos) (Kind : token.Token) (Value : String)
  | SelectorExpr (X : Node) (Sel : Ident)
  | StarExpr (Star : token.Pos) (X : Node)
  | ArrayType (Lbrack : token.Pos) (Len : Option Node) (Elt : Node)
  | CallExpr (Fun : Node) (Args : List Node)
  | StructType (Struct : token.Pos) (Opening : token.Pos) (Fields : List Field)
  | FieldList (Opening : token.Pos) (List : List Field)
  | Field (f : Field)
  | TypeSpec (Name : Ident) (TypeParams : Option Node) (Typ : Node)
  | Other (pos : token.Pos) (children : List Node)
/-- The Go type `*ast.Field`: a field declaration `Names Type Tag`; an
embedded field has no names. -/
inductive Field where
  | mk (Names : List Ident) (Typ : Node) (Tag : Option Node)
end

/-- The field `Names` of a field declaration. -/
def Field.Names : Field → List Ident
  | .mk Names _ _ => Names

/-- The field `Type` of a field declaration. -/
def Field.Typ : Field → Node
  | .mk _ Typ _ => Typ

/-- The method `Pos()` of the node kinds: the position of the first
character of the node. -/
def Node.Pos : Node → token.Pos
  | .Ident x => x.NamePos
  | .BasicLit p _ _ => p
  | .SelectorExpr X _ => X.Pos
  | .StarExpr p _ => p
  | .ArrayType p _ _ => p
  | .CallExpr Fun _ => Fun.Pos
  | .StructType p _ _ => p
  | .FieldList p _ => p
  | .Field (.mk [] Typ _) => Typ.Pos
  | .Field (.mk (x :: _) _ _) => x.NamePos
  | .TypeSpec Name _ _ => Name.NamePos
  | .Other p _ => p

/-- One node of `ast.Walk` under `ast.Inspect`: call `f` on the node; when it
answers `true`, walk the children and then call `f` on `nil`. -/
def visit {σ : Type} (f : σ → Option Node → σ × Bool) (n : Node) (children : σ → σ)
    (s : σ) : σ :=
  let r := f s (some n)
  if r.2 then (f (children r.1) none).1 else r.1

mutual
/-- The Go call `ast.Inspect(n, f)`, with the state the closure `f` writes to
passed explicitly: a depth-first traversal that calls `f` on every node
before its children, in source order, and skips the children of a node on
which `f` answers `false`. -/
def Inspect {σ : Type} (f : σ → Option Node → σ × Bool) : Node → σ → σ
  | .Ident x, s => visit f (.Ident x) id s
  | .BasicLit p k v, s => visit f (.BasicLit p k v) id s
  | .SelectorExpr X Sel, s =>
    visit f (.SelectorExpr X Sel) (fun s1 => visit f (.Ident Sel) id (Inspect f X s1)) s
  | .StarExpr p X, s => visit f (.StarExpr p X) (Inspect f X) s
  | .ArrayType p Len Elt, s =>
    visit f (.ArrayType p Len Elt) (fun s1 => Inspect f Elt (inspectOpt f Len s1)) s
  | .CallExpr Fun Args, s =>
    visit f (.CallExpr Fun Args) (fun s1 => inspectList f Args (Inspect f Fun s1)) s
  | .StructType p o Fields, s =>
    visit f (.StructType p o Fields)
      (fun s1 => visit f (.FieldList o Fields) (inspectFields f Fields) s1) s
  | .FieldList o Fields, s => visit f (.FieldList o Fields) (inspectFields f Fields) s
  | .Field fld, s => inspectField f fld s
  | .TypeSpec Name tp Typ, s =>
    visit f (.TypeSpec Name tp Typ)
      (fun s1 => Inspect f Typ (inspectOpt f tp (visit f (.Ident Name) id s1))) s
  | .Other p cs, s => visit f (.Other p cs) (inspectList f cs) s
/-- Walk of a child that may be `nil`. -/
def inspectOpt {σ : Type} (f : σ → Option Node → σ × Bool) : Option Node → σ → σ
  | none, s => s
  | some n, s => Inspect f n s
/-- Walk of a list of children, in order. -/
def inspectList {σ : Type} (f : σ → Option Node → σ × Bool) : List Node → σ → σ
  | [], s => s
  | n :: ns, s => inspectList f ns (Inspect f n s)
/-- Walk of a field declaration: its names, its type, its tag. -/
def inspectField {σ : Type} (f : σ → Option Node → σ × Bool) : Field → σ → σ
  | .mk Names Typ Tag, s =>
    visit f (.Field (.mk Names Typ Tag))
      (fun s1 => inspectOpt f Tag (Inspect f Typ
        (Names.foldl (fun s2 x => visit f (.Ident x) id s2) s1))) s
/-- Walk of the fields of a field list, in order. -/
def inspectFields {σ : Type} (f : σ → Option Node → σ × Bool) : List Field → σ → σ
  | [], s => s
  | fld :: flds, s => inspectFields f flds (inspectField f fld s)
end

mutual
/-- The nodes of a tree in the order `ast.Walk` reaches them (pre-order,
depth-first, children in source order). -/
def preorder : Node → List Node
  | .Ident x => [.Ident x]
  | .BasicLit p k v => [.BasicLit p k v]
  | .SelectorExpr X Sel => .SelectorExpr X Sel :: (preorder X ++ [.Ident Sel])
  | .StarExpr p X => .StarExpr p X :: preorder X
  | .ArrayType p Len Elt => .ArrayType p Len Elt :: (preorderOpt Len ++ preorder Elt)
  | .CallExpr Fun Args => .CallExpr Fun Args :: (preorder Fun ++ preorderList Args)
  | .StructType p o Fields =>
    .StructType p o Fields :: .FieldList o Fields :: preorderFields Fields
  | .FieldList o Fields => .FieldList o Fields :: preorderFields Fields
  | .Field fld => preorderField fld
  | .TypeSpec Name tp Typ =>
    .TypeSpec Name tp Typ :: .Ident Name :: (preorderOpt tp ++ preorder Typ)
  | .Other p cs => .Other p cs :: preorderList cs
/-- Pre-order of a child that may be `nil`. -/
def preorderOpt : Option Node → List Node
  | none => []
  | some n => preorder n
/-- Pre-order of a list of children. -/
def preorderList : List Node → List Node
  | [] => []
  | n :: ns => preorder n ++ preorderList ns
/-- Pre-order of a field declaration. -/
def preorderField : Field → List Node
  | .mk Names Typ Tag =>
    .Field (.mk Names Typ Tag) :: (Names.map Node.Ident ++ preorder Typ ++ preorderOpt Tag)
/-- Pre-order of the fields of a field list. -/
def preorderFields : List Field → List Node
  | [] => []
  | fld :: flds => preorderField fld ++ preorderFields flds
end

end ast

/-! ## main.go: the data model -/

/-- The Go struct `Parameter`. -/
structure Parameter where
  Name : String
  Type_ : String
  Source : String
deriving DecidableEq, Repr

/-- The Go struct `Node`.  A slice field is `none` for the nil slice a
composite literal leaves when it does not set the field; `Metadata` is the
map as its list of entries. -/
structure Node where
  Type_ : String
  ID : String
  Name : String
  FilePath : String
  LineNumber : Nat
  Method : String
  Path : String
  Parameters : Option (List Parameter)
  TableName : String
  Columns : Option (List String)
  Metadata : List (String × String)
  Confidence : String
deriving DecidableEq, Repr

/-- The Go struct `Edge`. -/
structure Edge where
  SourceID : String
  TargetID : String
  Type_ : String
deriving DecidableEq, Repr

/-- The Go struct `ExtractionResult`. -/
structure ExtractionResult where
  Nodes : List Node
  Edges : List Edge
  Confidence : String
deriving DecidableEq, Repr

/-! ## main.go: the type renderer -/

/-- The function `exprToString` (lines 232-245). -/
def exprToString : ast.Node → String
  | .Ident e => e.Name
  | .SelectorExpr X Sel => exprToString X ++ "." ++ Sel.Name
  | .StarExpr _ X => "*" ++ exprToString X
  | .ArrayType _ _ Elt => "[]" ++ exprToString Elt
  | _ => "unknown"

/-! ## main.go: the route detector -/

/-- The closure that `extractHTTPHandlers` hands to `ast.Inspect`
(lines 91-163), as a function of the result it appends to. -/
def extractHTTPHandlers.visit (filePath : String) (fset : token.FileSet)
    (result : ExtractionResult) (n : Option ast.Node) : ExtractionResult × Bool :=
  match n with
  | some (.CallExpr Fun Args) =>
    match Fun with
    | .SelectorExpr _ Sel =>
      let methodName := Sel.Name
      let httpMethod := ""
      let httpMethod := if methodName = "HandleFunc" then "GET" else httpMethod
      let httpMethod :=
        if methodName = "GET" then "GET"
        else if methodName = "POST" then "POST"
        else if methodName = "PUT" then "PUT"
        else if methodName = "DELETE" then "DELETE"
        else if methodName = "PATCH" then "PATCH"
        else httpMethod
      if httpMethod = "" then (result, true)
      else
        match Args with
        | [] => (result, true)
        | arg0 :: _ =>
          let path :=
            match arg0 with
            | .BasicLit _ _ Value => strings.Trim Value "\""
            | _ => ""
          if path = "" then (result, true)
          else
            let line := fset.Line (ast.Node.CallExpr Fun Args).Pos
            let node : Node :=
              { Type_ := "Endpoint"
                ID := filePath ++ ":" ++ httpMethod ++ ":" ++ fmt.itoa line
                Name := httpMethod ++ " " ++ path
                FilePath := filePath
                LineNumber := line
                Method := httpMethod
                Path := path
                Parameters := some []
                TableName := ""
                Columns := none
                Metadata := [("framework", "Go HTTP")]
                Confidence := "HIGH" }
            ({ result with Nodes := result.Nodes ++ [node] }, true)
    | _ => (result, true)
  | _ => (result, true)

/-- The function `extractHTTPHandlers` (lines 90-164). -/
def extractHTTPHandlers (file : ast.Node) (filePath : String) (fset : token.FileSet)
    (result : ExtractionResult) : ExtractionResult :=
  ast.Inspect (extractHTTPHandlers.visit filePath fset) file result

/-! ## main.go: the model detector -/

/-- The first loop of the closure of `extractGORMModels` (lines 180-193):
the value of `isGORMModel` after the loop over the fields, started at
`isGORMModel`. -/
def extractGORMModels.isGORMModel : List ast.Field → Bool → Bool
  | [], isGORMModel => isGORMModel
  | field :: rest, isGORMModel =>
    if field.Names.length = 0 then
      match field.Typ with
      | .SelectorExpr (.Ident ident) Sel =>
        if ident.Name = "gorm" ∧ Sel.Name = "Model" then true
        else extractGORMModels.isGORMModel rest isGORMModel
      | _ => extractGORMModels.isGORMModel rest isGORMModel
    else extractGORMModels.isGORMModel rest isGORMModel

/-- The second loop of the closure of `extractGORMModels` (lines 200-207):
the value of `columns` after the loop over the fields, started at
`columns`. -/
def extractGORMModels.columns : List ast.Field → List String → List String
  | [], columns => columns
  | field :: rest, columns =>
    match field.Names with
    | [] => extractGORMModels.columns rest columns
    | name0 :: _ =>
      let fieldName := name0.Name
      let fieldType := exprToString field.Typ
      extractGORMModels.columns rest (columns ++ [fieldName ++ ":" ++ fieldType])

/-- The closure that `extractGORMModels` hands to `ast.Inspect`
(lines 167-229), as a function of the result it appends to. -/
def extractGORMModels.visit (filePath : String) (fset : token.FileSet)
    (result : ExtractionResult) (n : Option ast.Node) : ExtractionResult × Bool :=
  match n with
  | some (.TypeSpec Name tp Typ) =>
    match Typ with
    | .StructType _ _ Fields =>
      let isGORMModel := extractGORMModels.isGORMModel Fields false
      if !isGORMModel then (result, true)
      else
        let columns := extractGORMModels.columns Fields []
        let line := fset.Line (ast.Node.TypeSpec Name tp Typ).Pos
        let tableName := strings.ToLower Name.Name ++ "s"
        let node : Node :=
          { Type_ := "DatabaseModel"
            ID := filePath ++ ":" ++ Name.Name ++ ":" ++ fmt.itoa line
            Name := Name.Name
            FilePath := filePath
            LineNumber := line
            Method := ""
            Path := ""
            Parameters := none
            TableName := tableName
            Columns := some columns
            Metadata := [("framework", "GORM")]
            Confidence := "HIGH" }
        ({ result with Nodes := result.Nodes ++ [node] }, true)
    | _ => (result, true)
  | _ => (result, true)

/-- The function `extractGORMModels` (lines 166-230). -/
def extractGORMModels (file : ast.Node) (filePath : String) (fset : token.FileSet)
    (result : ExtractionResult) : ExtractionResult :=
  ast.Inspect (extractGORMModels.visit filePath fset) file result

/-! ## main.go: the run -/

/-- The result that `main` builds for a parsed file (lines 68-78): the empty
result with confidence `HIGH`, then the two detectors in turn. -/
def mainResult (file : ast.Node) (filePath : String) (fset : token.FileSet) :
    ExtractionResult :=
  let result : ExtractionResult := { Nodes := [], Edges := [], Confidence := "HIGH" }
  let result := extractHTTPHandlers file filePath fset result
  extractGORMModels file filePath fset result

/-! ## Derived notions used to state the properties -/

/-- The nodes the closure of `extractHTTPHandlers` appends when it visits `n`. -/
def extractHTTPHandlers.emitted (filePath : String) (fset : token.FileSet)
    (n : ast.Node) : List Node :=
  (extractHTTPHandlers.visit filePath fset { Nodes := [], Edges := [], Confidence := "" }
    (some n)).1.Nodes

/-- The nodes the closure of `extractGORMModels` appends when it visits `n`. -/
def extractGORMModels.emitted (filePath : String) (fset : token.FileSet)
    (n : ast.Node) : List Node :=
  (extractGORMModels.visit filePath fset { Nodes := [], Edges := [], Confidence := "" }
    (some n)).1.Nodes

/-- The five names of the verb vocabulary. -/
def verbNames : List String := ["GET", "POST", "PUT", "DELETE", "PATCH"]

/-- The names a route registration can have: the five verbs and `HandleFunc`. -/
def routeNames : List String := ["GET", "POST", "PUT", "DELETE", "PATCH", "HandleFunc"]

/-- The route conditions in the words of the specification: a call whose
callee is a selector named in the vocabulary and whose first argument is a
literal with something between its double quotes, that is, a literal whose
text is not made of double quotes only. -/
def routeConditions : ast.Node → Bool
  | .CallExpr (.SelectorExpr _ Sel) (.BasicLit _ _ Value :: _) =>
    decide (Sel.Name ∈ routeNames) && Value.data.any (fun c => c != '\"')
  | _ => false

/-- The marker of the specification: an embedded (nameless) field whose type
is exactly the selector `gorm.Model`. -/
def isGormModelEmbedding (fld : ast.Field) : Bool :=
  fld.Names.isEmpty &&
    match fld.Typ with
    | .SelectorExpr (.Ident x) Sel => x.Name == "gorm" && Sel.Name == "Model"
    | _ => false

/-- The model condition in the words of the specification: a type
declaration of a struct with at least one field that embeds `gorm.Model`. -/
def modelConditions : ast.Node → Bool
  | .TypeSpec _ _ (.StructType _ _ Fields) => Fields.any isGormModelEmbedding
  | _ => false

/-- The discriminant of a node's id: the verb of an endpoint, the type name
of a model. -/
def Node.discriminant (nd : Node) : String :=
  if nd.Type_ = "Endpoint" then nd.Method else nd.Name

/-- The value of a string of decimal digits. -/
def decimalValue (l : List Char) : Nat :=
  l.foldl (fun a c => a * 10 + (c.toNat - 48)) 0

/-! ## Sample inputs -/

namespace Sample

/-- A file whose text is on one line. -/
def oneLine : token.FileSet := token.FileSet.ofLineStarts [1]

/-- A file of lines of forty characters. -/
def lines40 : token.FileSet := token.FileSet.ofLineStarts [1, 41, 81, 121]

/-- The empty result `main` starts from. -/
def empty : ExtractionResult := { Nodes := [], Edges := [], Confidence := "HIGH" }

/-- The call `recv.name(arg)` at position `p`. -/
def call (p : token.Pos) (recv name : String) (args : List ast.Node) : ast.Node :=
  .CallExpr (.SelectorExpr (.Ident ⟨p, recv⟩) ⟨p + recv.length + 1, name⟩) args

/-- The call `Router.GET("/users")`. -/
def routerGET : ast.Node := call 1 "Router" "GET" [.BasicLit 12 .STRING "\"/users\""]

/-- The call `Router.POST("/users")`. -/
def routerPOST : ast.Node := call 41 "Router" "POST" [.BasicLit 53 .STRING "\"/users\""]

/-- The call `http.HandleFunc("/", h)`. -/
def handleFunc : ast.Node :=
  call 1 "http" "HandleFunc" [.BasicLit 17 .STRING "\"/\"", .Ident ⟨22, "h"⟩]

/-- The call `SomeOther.Method("/x")`. -/
def otherMethod : ast.Node := call 1 "SomeOther" "Method" [.BasicLit 18 .STRING "\"/x\""]

/-- The call `register("/x")` of a bare function. -/
def bareCall : ast.Node := .CallExpr (.Ident ⟨1, "register"⟩) [.BasicLit 10 .STRING "\"/x\""]

/-- The call `Router.GET(pathVar)`. -/
def routerGETvar : ast.Node := call 1 "Router" "GET" [.Ident ⟨12, "pathVar"⟩]

/-- The call `cache.GET(42)`. -/
def cacheGET : ast.Node := call 1 "cache" "GET" [.BasicLit 11 .INT "42"]

/-- The embedded field `gorm.Model`. -/
def gormModel (p : token.Pos) : ast.Field :=
  .mk [] (.SelectorExpr (.Ident ⟨p, "gorm"⟩) ⟨p + 5, "Model"⟩) none

/-- The declaration `type name struct { Fields }` at position `p`. -/
def structDecl (p : token.Pos) (name : String) (Fields : List ast.Field) : ast.Node :=
  .TypeSpec ⟨p, name⟩ none (.StructType (p + name.length + 1) (p + name.length + 8) Fields)

/-- The fields `gorm.Model; Name string; Age int`. -/
def userFields : List ast.Field :=
  [gormModel 20, .mk [⟨32, "Name"⟩] (.Ident ⟨37, "string"⟩) none,
    .mk [⟨45, "Age"⟩] (.Ident ⟨49, "int"⟩) none]

/-- The declaration `type User struct { gorm.Model; Name string; Age int }`. -/
def userStruct : ast.Node := structDecl 6 "User" userFields

/-- The fields `gorm.Model; A, B int`. -/
def pairFields : List ast.Field :=
  [gormModel 20, .mk [⟨32, "A"⟩, ⟨35, "B"⟩] (.Ident ⟨37, "int"⟩) none]

/-- The declaration `type Pair struct { gorm.Model; A, B int }`. -/
def pairStruct : ast.Node := structDecl 6 "Pair" pairFields

/-- The fields `Name string` of a struct without embedding. -/
def plainFields : List ast.Field := [.mk [⟨21, "Name"⟩] (.Ident ⟨26, "string"⟩) none]

/-- The declaration `type Plain struct { Name string }`. -/
def plainStruct : ast.Node := structDecl 6 "Plain" plainFields

/-- The embedded field `*gorm.Model`. -/
def starGormModel : ast.Field :=
  .mk [] (.StarExpr 20 (.SelectorExpr (.Ident ⟨21, "gorm"⟩) ⟨26, "Model"⟩)) none

/-- The embedded field `other.Model`. -/
def otherModel : ast.Field := .mk [] (.SelectorExpr (.Ident ⟨20, "other"⟩) ⟨26, "Model"⟩) none

/-- The embedded field `gorm.model`. -/
def gormLowerModel : ast.Field :=
  .mk [] (.SelectorExpr (.Ident ⟨20, "gorm"⟩) ⟨25, "model"⟩) none

/-- The embedded field `Model`. -/
def bareModel : ast.Field := .mk [] (.Ident ⟨20, "Model"⟩) none

/-- The named field `Base gorm.Model`. -/
def namedGormModel : ast.Field :=
  .mk [⟨20, "Base"⟩] (.SelectorExpr (.Ident ⟨25, "gorm"⟩) ⟨30, "Model"⟩) none

/-- The declaration `type ID int`, which is no struct. -/
def intDecl : ast.Node := .TypeSpec ⟨6, "ID"⟩ none (.Ident ⟨9, "int"⟩)

/-- The DatabaseModel node of `userStruct` in the file `a.go` of one line. -/
def userNode : Node :=
  { Type_ := "DatabaseModel", ID := "a.go:User:1", Name := "User", FilePath := "a.go",
    LineNumber := 1, Method := "", Path := "", Parameters := none, TableName := "users",
    Columns := some ["Name:string", "Age:int"], Metadata := [("framework", "GORM")],
    Confidence := "HIGH" }

/-- The chained registration `r.GET("/a", h).GET("/b", h)`: the callee of the
outer call selects `GET` on the inner call, so both calls start at `r`. -/
def chainedGET : ast.Node :=
  .CallExpr
    (.SelectorExpr (call 1 "r" "GET" [.BasicLit 7 .STRING "\"/a\"", .Ident ⟨13, "h"⟩])
      ⟨16, "GET"⟩)
    [.BasicLit 20 .STRING "\"/b\"", .Ident ⟨26, "h"⟩]

/-- The call `Router.GET("/say\"hi\"")`, whose literal ends with an escaped
double quote. -/
def escapedTail : ast.Node :=
  call 1 "Router" "GET" [.BasicLit 12 .STRING "\"/say\\\"hi\\\"\""]

/-- The call `Router.GET("\"hi\"/x")`, whose literal begins with an escaped
double quote. -/
def escapedHead : ast.Node :=
  call 1 "Router" "GET" [.BasicLit 12 .STRING "\"\\\"hi\\\"/x\""]

/-- The call `Router.GET("")`. -/
def routerGETempty : ast.Node := call 1 "Router" "GET" [.BasicLit 12 .STRING "\"\""]

/-- The nested registration `r.GET("/a", r.POST("/b", h))`. -/
def nestedGET : ast.Node :=
  call 1 "r" "GET" [.BasicLit 7 .STRING "\"/a\"",
    call 13 "r" "POST" [.BasicLit 20 .STRING "\"/b\"", .Ident ⟨26, "h"⟩]]

/-- The declaration `type Base struct { gorm.Model }`, without named fields. -/
def baseStruct : ast.Node := structDecl 6 "Base" [gormModel 20]

/-- The Endpoint node of `routerGET` in the file `a.go` of one line. -/
def usersEndpoint : Node :=
  { Type_ := "Endpoint", ID := "a.go:GET:1", Name := "GET /users", FilePath := "a.go",
    LineNumber := 1, Method := "GET", Path := "/users", Parameters := some [],
    TableName := "", Columns := none, Metadata := [("framework", "Go HTTP")],
    Confidence := "HIGH" }

/-- The Endpoint node of `handleFunc` in the file `a.go` of one line. -/
def rootEndpoint : Node :=
  { Type_ := "Endpoint", ID := "a.go:GET:1", Name := "GET /", FilePath := "a.go",
    LineNumber := 1, Method := "GET", Path := "/", Parameters := some [],
    TableName := "", Columns := none, Metadata := [("framework", "Go HTTP")],
    Confidence := "HIGH" }

/-- The declaration `type Ärger struct { gorm.Model }`, whose name starts with
a letter outside ASCII (two bytes in the source file). -/
def aergerStruct : ast.Node :=
  .TypeSpec ⟨6, "Ärger"⟩ none (.StructType 13 20 [gormModel 22])

/-- A file made of the given nodes. -/
def file (children : List ast.Node) : ast.Node := .Other 1 children

end Sample

/-! ## ast.Inspect with a closure that never prunes -/

namespace ast

theorem visit_eq_children {σ : Type} (f : σ → Option Node → σ × Bool)
    (hT : ∀ s n, (f s n).2 = true) (hN : ∀ s, (f s none).1 = s)
    (n : Node) (children : σ → σ) (s : σ) :
    visit f n children s = children (f s (some n)).1 := by
  simp [visit, hT, hN]

mutual
theorem Inspect_eq_foldl {σ : Type} (f : σ → Option Node → σ × Bool)
    (hT : ∀ s n, (f s n).2 = true) (hN : ∀ s, (f s none).1 = s) :
    ∀ (n : Node) (s : σ), Inspect f n s = (preorder n).foldl (fun s2 m => (f s2 (some m)).1) s
  | .Ident x, s => by simp [Inspect, preorder, visit_eq_children f hT hN]
  | .BasicLit p k v, s => by simp [Inspect, preorder, visit_eq_children f hT hN]
  | .SelectorExpr X Sel, s => by
    simp [Inspect, preorder, visit_eq_children f hT hN, Inspect_eq_foldl f hT hN X]
  | .StarExpr p X, s => by
    simp [Inspect, preorder, visit_eq_children f hT hN, Inspect_eq_foldl f hT hN X]
  | .ArrayType p Len Elt, s => by
    simp [Inspect, preorder, visit_eq_children f hT hN, Inspect_eq_foldl f hT hN Elt,
      inspectOpt_eq_foldl f hT hN Len]
  | .CallExpr Fun Args, s => by
    simp [Inspect, preorder, visit_eq_children f hT hN, Inspect_eq_foldl f hT hN Fun,
      inspectList_eq_foldl f hT hN Args]
  | .StructType p o Fields, s => by
    simp [Inspect, preorder, visit_eq_children f hT hN, inspectFields_eq_foldl f hT hN Fields]
  | .FieldList o Fields, s => by
    simp [Inspect, preorder, visit_eq_children f hT hN, inspectFields_eq_foldl f hT hN Fields]
  | .Field fld, s => by
    simp [Inspect, preorder, inspectField_eq_foldl f hT hN fld]
  | .TypeSpec Name tp Typ, s => by
    simp [Inspect, preorder, visit_eq_children f hT hN, Inspect_eq_foldl f hT hN Typ,
      inspectOpt_eq_foldl f hT hN tp]
  | .Other p cs, s => by
    simp [Inspect, preorder, visit_eq_children f hT hN, inspectList_eq_foldl f hT hN cs]
theorem inspectOpt_eq_foldl {σ : Type} (f : σ → Option Node → σ × Bool)
    (hT : ∀ s n, (f s n).2 = true) (hN : ∀ s, (f s none).1 = s) :
    ∀ (n : Option Node) (s : σ),
      inspectOpt f n s = (preorderOpt n).foldl (fun s2 m => (f s2 (some m)).1) s
  | none, s => by simp [inspectOpt, preorderOpt]
  | some n, s => by simp [inspectOpt, preorderOpt, Inspect_eq_foldl f hT hN n]
theorem inspectList_eq_foldl {σ : Type} (f : σ → Option Node → σ × Bool)
    (hT : ∀ s n, (f s n).2 = true) (hN : ∀ s, (f s none).1 = s) :
    ∀ (ns : List Node) (s : σ),
      inspectList f ns s = (preorderList ns).foldl (fun s2 m => (f s2 (some m)).1) s
  | [], s => by simp [inspectList, preorderList]
  | n :: ns, s => by
    simp [inspectList, preorderList, Inspect_eq_foldl f hT hN n,
      inspectList_eq_foldl f hT hN ns]
theorem inspectField_eq_foldl {σ : Type} (f : σ → Option Node → σ × Bool)
    (hT : ∀ s n, (f s n).2 = true) (hN : ∀ s, (f s none).1 = s) :
    ∀ (fld : Field) (s : σ),
      inspectField f fld s = (preorderField fld).foldl (fun s2 m => (f s2 (some m)).1) s
  | .mk Names Typ Tag, s => by
    simp [inspectField, preorderField, visit_eq_children f hT hN, List.foldl_map,
      Inspect_eq_foldl f hT hN Typ, inspectOpt_eq_foldl f hT hN Tag]
theorem inspectFields_eq_foldl {σ : Type} (f : σ → Option Node → σ × Bool)
    (hT : ∀ s n, (f s n).2 = true) (hN : ∀ s, (f s none).1 = s) :
    ∀ (flds : List Field) (s : σ),
      inspectFields f flds s = (preorderFields flds).foldl (fun s2 m => (f s2 (some m)).1) s
  | [], s => by simp [inspectFields, preorderFields]
  | fld :: flds, s => by
    simp [inspectFields, preorderFields, inspectField_eq_foldl f hT hN fld,
      inspectFields_eq_foldl f hT hN flds]
end

end ast

/-! ## The traversals as folds over the pre-order -/

theorem extractHTTPHandlers_visit_eq (filePath : String) (fset : token.FileSet)
    (r : ExtractionResult) (n : ast.Node) :
    extractHTTPHandlers.visit filePath fset r (some n)
      = ({ r with Nodes := r.Nodes ++ extractHTTPHandlers.emitted filePath fset n }, true) := by
  cases n with
  | CallExpr Fun Args =>
    cases Fun with
    | SelectorExpr X Sel =>
      cases Args with
      | nil =>
        simp only [extractHTTPHandlers.emitted, extractHTTPHandlers.visit]
        split_ifs <;> simp
      | cons a as =>
        simp only [extractHTTPHandlers.emitted, extractHTTPHandlers.visit]
        split_ifs <;> simp
    | _ => simp [extractHTTPHandlers.emitted, extractHTTPHandlers.visit]
  | _ => simp [extractHTTPHandlers.emitted, extractHTTPHandlers.visit]

theorem extractHTTPHandlers_visit_nil (filePath : String) (fset : token.FileSet)
    (r : ExtractionResult) :
    extractHTTPHandlers.visit filePath fset r none = (r, true) := by
  simp [extractHTTPHandlers.visit]

theorem foldl_append_nodes (g : ast.Node → List Node) (l : List ast.Node)
    (r : ExtractionResult) :
    l.foldl (fun s m => ({ s with Nodes := s.Nodes ++ g m } : ExtractionResult)) r
      = { r with Nodes := r.Nodes ++ l.flatMap g } := by
  induction l generalizing r with
  | nil => simp
  | cons a l ih => simp [List.foldl, ih, List.append_assoc]

theorem extractHTTPHandlers_eq (file : ast.Node) (filePath : String) (fset : token.FileSet)
    (r : ExtractionResult) :
    extractHTTPHandlers file filePath fset r
      = { r with Nodes := r.Nodes ++
            (ast.preorder file).flatMap (extractHTTPHandlers.emitted filePath fset) } := by
  unfold extractHTTPHandlers
  rw [ast.Inspect_eq_foldl]
  · simp only [extractHTTPHandlers_visit_eq]
    exact foldl_append_nodes _ _ _
  · intro s n
    cases n with
    | none => simp [extractHTTPHandlers_visit_nil]
    | some n => simp [extractHTTPHandlers_visit_eq]
  · intro s
    simp [extractHTTPHandlers_visit_nil]

/-! ## strings.Trim and the double quote -/

theorem strings.Trim_eq_empty_iff (v cutset : String) :
    strings.Trim v cutset = "" ↔ ∀ c ∈ v.data, c ∈ cutset.data := by
  unfold strings.Trim
  rw [show ("" : String) = String.mk [] from rfl, String.ext_iff]
  simp only [List.reverse_eq_nil_iff, List.dropWhile_eq_nil_iff]
  constructor
  · intro h
    have h2 : List.dropWhile (fun c => cutset.data.contains c) v.data = [] := by
      by_contra hne
      have hh := List.head_dropWhile_not (fun c => cutset.data.contains c) v.data hne
      have := h _ (List.mem_reverse.mpr (List.head_mem hne))
      simp at this hh
      exact hh this
    rw [List.dropWhile_eq_nil_iff] at h2
    intro c hc
    simpa using h2 c hc
  · intro h c hc
    have hc2 : c ∈ v.data := (List.dropWhile_sublist _).subset (List.mem_reverse.mp hc)
    simpa using h c hc2

theorem token.isStringBody_head (c : Char) (rest : List Char)
    (h : token.isStringBody (c :: rest) = true) : c ≠ '\"' := by
  cases rest with
  | nil =>
    simp [token.isStringBody] at h
    exact h.2.1
  | cons d rest =>
    unfold token.isStringBody at h
    split_ifs at h with h1 h2
    · rw [h1]; decide
    · intro hc; exact h2 (Or.inl hc)

theorem strings.Trim_quoted_ne_empty (s : String) (hbody : token.isStringBody s.data = true)
    (hne : s ≠ "") : strings.Trim ("\"" ++ s ++ "\"") "\"" ≠ "" := by
  rw [Ne, strings.Trim_eq_empty_iff]
  intro h
  obtain ⟨l⟩ := s
  cases l with
  | nil => exact hne rfl
  | cons c rest =>
    have hc := token.isStringBody_head c rest hbody
    have := h c (by simp [String.data_append])
    simp at this
    exact hc this

/-! ## What the two closures append -/

theorem extractGORMModels_visit_eq (filePath : String) (fset : token.FileSet)
    (r : ExtractionResult) (n : ast.Node) :
    extractGORMModels.visit filePath fset r (some n)
      = ({ r with Nodes := r.Nodes ++ extractGORMModels.emitted filePath fset n }, true) := by
  cases n with
  | TypeSpec Name tp Typ =>
    cases Typ with
    | StructType s o Fields =>
      simp only [extractGORMModels.emitted, extractGORMModels.visit]
      split_ifs <;> simp
    | _ => simp [extractGORMModels.emitted, extractGORMModels.visit]
  | _ => simp [extractGORMModels.emitted, extractGORMModels.visit]

theorem extractGORMModels_visit_nil (filePath : String) (fset : token.FileSet)
    (r : ExtractionResult) :
    extractGORMModels.visit filePath fset r none = (r, true) := by
  simp [extractGORMModels.visit]

theorem extractGORMModels_eq (file : ast.Node) (filePath : String) (fset : token.FileSet)
    (r : ExtractionResult) :
    extractGORMModels file filePath fset r
      = { r with Nodes := r.Nodes ++
            (ast.preorder file).flatMap (extractGORMModels.emitted filePath fset) } := by
  unfold extractGORMModels
  rw [ast.Inspect_eq_foldl]
  · simp only [extractGORMModels_visit_eq]
    exact foldl_append_nodes _ _ _
  · intro s n
    cases n with
    | none => simp [extractGORMModels_visit_nil]
    | some n => simp [extractGORMModels_visit_eq]
  · intro s
    simp [extractGORMModels_visit_nil]

theorem mainResult_eq (file : ast.Node) (filePath : String) (fset : token.FileSet) :
    mainResult file filePath fset
      = { Nodes := (ast.preorder file).flatMap (extractHTTPHandlers.emitted filePath fset) ++
            (ast.preorder file).flatMap (extractGORMModels.emitted filePath fset)
          Edges := []
          Confidence := "HIGH" } := by
  simp [mainResult, extractGORMModels_eq, extractHTTPHandlers_eq]

theorem extractHTTPHandlers_emitted_not_route (filePath : String) (fset : token.FileSet)
    (X : ast.Node) (Sel : ast.Ident) (Args : List ast.Node) (h : Sel.Name ∉ routeNames) :
    extractHTTPHandlers.emitted filePath fset (.CallExpr (.SelectorExpr X Sel) Args) = [] := by
  simp only [routeNames, List.mem_cons, List.mem_singleton, List.not_mem_nil, or_false,
    not_or] at h
  obtain ⟨h1, h2, h3, h4, h5, h6⟩ := h
  simp [extractHTTPHandlers.emitted, extractHTTPHandlers.visit, h1, h2, h3, h4, h5, h6]

theorem extractHTTPHandlers_emitted_not_lit (filePath : String) (fset : token.FileSet)
    (X : ast.Node) (Sel : ast.Ident) (a : ast.Node) (rest : List ast.Node)
    (h : ∀ p k v, a ≠ .BasicLit p k v) :
    extractHTTPHandlers.emitted filePath fset (.CallExpr (.SelectorExpr X Sel) (a :: rest)) = [] := by
  have hp : (match a with
      | .BasicLit _ _ Value => strings.Trim Value "\""
      | _ => "") = "" := by
    cases a <;> first | rfl | exact absurd rfl (h _ _ _)
  simp only [extractHTTPHandlers.emitted, extractHTTPHandlers.visit, hp]
  split_ifs <;> rfl

theorem extractHTTPHandlers_emitted_no_args (filePath : String) (fset : token.FileSet)
    (X : ast.Node) (Sel : ast.Ident) :
    extractHTTPHandlers.emitted filePath fset (.CallExpr (.SelectorExpr X Sel) []) = [] := by
  simp only [extractHTTPHandlers.emitted, extractHTTPHandlers.visit]
  split_ifs <;> rfl

theorem extractHTTPHandlers_emitted_trim_empty (filePath : String) (fset : token.FileSet)
    (X : ast.Node) (Sel : ast.Ident) (p : token.Pos) (k : token.Token) (v : String)
    (rest : List ast.Node) (hv : strings.Trim v "\"" = "") :
    extractHTTPHandlers.emitted filePath fset
      (.CallExpr (.SelectorExpr X Sel) (.BasicLit p k v :: rest)) = [] := by
  simp only [extractHTTPHandlers.emitted, extractHTTPHandlers.visit, hv]
  split_ifs <;> rfl

theorem extractHTTPHandlers_emitted_route (filePath : String) (fset : token.FileSet)
    (X : ast.Node) (Sel : ast.Ident) (p : token.Pos) (k : token.Token) (v : String)
    (rest : List ast.Node) (hname : Sel.Name ∈ routeNames)
    (hv : strings.Trim v "\"" ≠ "") :
    extractHTTPHandlers.emitted filePath fset
        (.CallExpr (.SelectorExpr X Sel) (.BasicLit p k v :: rest)) =
      [{ Type_ := "Endpoint"
         ID := filePath ++ ":" ++ (if Sel.Name = "HandleFunc" then "GET" else Sel.Name) ++ ":"
            ++ fmt.itoa (fset.Line X.Pos)
         Name := (if Sel.Name = "HandleFunc" then "GET" else Sel.Name) ++ " "
            ++ strings.Trim v "\""
         FilePath := filePath
         LineNumber := fset.Line X.Pos
         Method := if Sel.Name = "HandleFunc" then "GET" else Sel.Name
         Path := strings.Trim v "\""
         Parameters := some []
         TableName := ""
         Columns := none
         Metadata := [("framework", "Go HTTP")]
         Confidence := "HIGH" }] := by
  simp only [routeNames, List.mem_cons, List.mem_singleton, List.not_mem_nil, or_false] at hname
  rcases hname with h | h | h | h | h | h <;>
    simp [extractHTTPHandlers.emitted, extractHTTPHandlers.visit, h, hv, ast.Node.Pos]

theorem extractHTTPHandlers_emitted_inv (filePath : String) (fset : token.FileSet)
    (n : ast.Node) (nd : Node) (h : nd ∈ extractHTTPHandlers.emitted filePath fset n) :
    ∃ X Sel p k v rest,
      n = .CallExpr (.SelectorExpr X Sel) (.BasicLit p k v :: rest) ∧
      Sel.Name ∈ routeNames ∧ strings.Trim v "\"" ≠ "" ∧
      extractHTTPHandlers.emitted filePath fset n = [nd] ∧
      nd =
        { Type_ := "Endpoint"
          ID := filePath ++ ":" ++ (if Sel.Name = "HandleFunc" then "GET" else Sel.Name) ++ ":"
            ++ fmt.itoa (fset.Line X.Pos)
          Name := (if Sel.Name = "HandleFunc" then "GET" else Sel.Name) ++ " "
            ++ strings.Trim v "\""
          FilePath := filePath
          LineNumber := fset.Line X.Pos
          Method := if Sel.Name = "HandleFunc" then "GET" else Sel.Name
          Path := strings.Trim v "\""
          Parameters := some []
          TableName := ""
          Columns := none
          Metadata := [("framework", "Go HTTP")]
          Confidence := "HIGH" } := by
  cases n with
  | CallExpr Fun Args =>
    cases Fun with
    | SelectorExpr X Sel =>
      by_cases hname : Sel.Name ∈ routeNames
      · cases Args with
        | nil => simp [extractHTTPHandlers_emitted_no_args] at h
        | cons a rest =>
          by_cases ha : ∃ p k v, a = .BasicLit p k v
          · obtain ⟨p, k, v, rfl⟩ := ha
            by_cases hv : strings.Trim v "\"" = ""
            · simp [extractHTTPHandlers_emitted_trim_empty _ _ _ _ _ _ _ _ hv] at h
            · rw [extractHTTPHandlers_emitted_route _ _ _ _ _ _ _ _ hname hv] at h ⊢
              have hnd : nd = _ := List.mem_singleton.mp h
              exact ⟨X, Sel, p, k, v, rest, rfl, hname, hv, by rw [hnd], hnd⟩
          · have := extractHTTPHandlers_emitted_not_lit filePath fset X Sel a rest
              (fun p k v hh => ha ⟨p, k, v, hh⟩)
            simp [this] at h
      · simp [extractHTTPHandlers_emitted_not_route _ _ _ _ _ hname] at h
    | _ => simp [extractHTTPHandlers.emitted, extractHTTPHandlers.visit] at h
  | _ => simp [extractHTTPHandlers.emitted, extractHTTPHandlers.visit] at h

theorem extractGORMModels_emitted_inv (filePath : String) (fset : token.FileSet)
    (n : ast.Node) (nd : Node) (h : nd ∈ extractGORMModels.emitted filePath fset n) :
    ∃ Name tp s o Fields,
      n = .TypeSpec Name tp (.StructType s o Fields) ∧
      extractGORMModels.isGORMModel Fields false = true ∧
      extractGORMModels.emitted filePath fset n = [nd] ∧
      nd =
        { Type_ := "DatabaseModel"
          ID := filePath ++ ":" ++ Name.Name ++ ":" ++ fmt.itoa (fset.Line n.Pos)
          Name := Name.Name
          FilePath := filePath
          LineNumber := fset.Line n.Pos
          Method := ""
          Path := ""
          Parameters := none
          TableName := strings.ToLower Name.Name ++ "s"
          Columns := some (extractGORMModels.columns Fields [])
          Metadata := [("framework", "GORM")]
          Confidence := "HIGH" } := by
  cases n with
  | TypeSpec Name tp Typ =>
    cases Typ with
    | StructType s o Fields =>
      refine ⟨Name, tp, s, o, Fields, rfl, ?_⟩
      simp only [extractGORMModels.emitted, extractGORMModels.visit] at h ⊢
      split_ifs at h ⊢ <;> simp_all
    | _ => simp [extractGORMModels.emitted, extractGORMModels.visit] at h
  | _ => simp [extractGORMModels.emitted, extractGORMModels.visit] at h

/-! ## C1-C4: the route detector -/

theorem extractHTTPHandlers_mem_of_emitted (file : ast.Node) (filePath : String)
    (fset : token.FileSet) (r : ExtractionResult) (c : ast.Node) (nd : Node)
    (hin : c ∈ ast.preorder file) (hnd : nd ∈ extractHTTPHandlers.emitted filePath fset c) :
    nd ∈ (extractHTTPHandlers file filePath fset r).Nodes := by
  rw [extractHTTPHandlers_eq]
  exact List.mem_append_right _ (List.mem_flatMap.mpr ⟨c, hin, hnd⟩)

/-- C1: a call `recv.M("...")` whose selector name `M` is one of GET, POST, PUT,
DELETE, PATCH and whose first argument is a double-quoted string literal with
non-empty contents makes the closure of `extractHTTPHandlers` append exactly
one node, an Endpoint whose method is `M`; for a call of the tree that node is
in the result. -/
theorem C1_verb_call_emits_one_endpoint (file : ast.Node) (filePath : String)
    (fset : token.FileSet) (r : ExtractionResult) (X : ast.Node) (Sel : ast.Ident)
    (p : token.Pos) (s : String) (rest : List ast.Node)
    (hverb : Sel.Name ∈ verbNames)
    (hbody : token.isStringBody s.data = true) (hne : s ≠ "")
    (hin : ast.Node.CallExpr (.SelectorExpr X Sel)
        (.BasicLit p .STRING ("\"" ++ s ++ "\"") :: rest) ∈ ast.preorder file) :
    ∃ nd : Node, nd.Type_ = "Endpoint" ∧ nd.Method = Sel.Name ∧
      (∀ r' : ExtractionResult,
        extractHTTPHandlers.visit filePath fset r'
            (some (.CallExpr (.SelectorExpr X Sel)
              (.BasicLit p .STRING ("\"" ++ s ++ "\"") :: rest)))
          = ({ r' with Nodes := r'.Nodes ++ [nd] }, true)) ∧
      nd ∈ (extractHTTPHandlers file filePath fset r).Nodes := by
  have hname : Sel.Name ∈ routeNames := by
    simp only [verbNames, List.mem_cons, List.mem_singleton, List.not_mem_nil, or_false] at hverb
    simp only [routeNames, List.mem_cons, List.mem_singleton, List.not_mem_nil, or_false]
    tauto
  have hnot : Sel.Name ≠ "HandleFunc" := by
    simp only [verbNames, List.mem_cons, List.mem_singleton, List.not_mem_nil, or_false] at hverb
    rcases hverb with h | h | h | h | h <;> rw [h] <;> decide
  have hem := extractHTTPHandlers_emitted_route filePath fset X Sel p .STRING
    ("\"" ++ s ++ "\"") rest hname (strings.Trim_quoted_ne_empty s hbody hne)
  obtain ⟨nd, hem, hty, hm⟩ : ∃ nd : Node,
      extractHTTPHandlers.emitted filePath fset (.CallExpr (.SelectorExpr X Sel)
        (.BasicLit p .STRING ("\"" ++ s ++ "\"") :: rest)) = [nd] ∧
      nd.Type_ = "Endpoint" ∧
      nd.Method = (if Sel.Name = "HandleFunc" then "GET" else Sel.Name) := ⟨_, hem, rfl, rfl⟩
  refine ⟨nd, hty, by simpa [hnot] using hm, fun r' => ?_, ?_⟩
  · rw [extractHTTPHandlers_visit_eq, hem]
  · exact extractHTTPHandlers_mem_of_emitted file filePath fset r _ nd hin (by simp [hem])

/-- C1 at `Router.GET("/users")`: the one Endpoint node has method GET. -/
theorem C1_verb_call_emits_one_endpoint_witness :
    ∃ nd : Node, nd.Type_ = "Endpoint" ∧ nd.Method = "GET" ∧
      (∀ r' : ExtractionResult,
        extractHTTPHandlers.visit "a.go" Sample.oneLine r' (some Sample.routerGET)
          = ({ r' with Nodes := r'.Nodes ++ [nd] }, true)) ∧
      nd ∈ (extractHTTPHandlers (Sample.file [Sample.routerGET]) "a.go" Sample.oneLine
        Sample.empty).Nodes :=
  C1_verb_call_emits_one_endpoint (Sample.file [Sample.routerGET]) "a.go" Sample.oneLine
    Sample.empty (.Ident ⟨1, "Router"⟩) ⟨8, "GET"⟩ 12 "/users" [] (by decide) (by decide)
    (by decide) (List.Mem.tail _ (List.Mem.head _))

/-- C2: a call `recv.HandleFunc("...")` whose first argument is a double-quoted
string literal with non-empty contents is not dropped: the closure of
`extractHTTPHandlers` appends exactly one node, an Endpoint whose method is
the default verb GET; for a call of the tree that node is in the result. -/
theorem C2_handlefunc_emits_default_get (file : ast.Node) (filePath : String)
    (fset : token.FileSet) (r : ExtractionResult) (X : ast.Node) (Sel : ast.Ident)
    (p : token.Pos) (s : String) (rest : List ast.Node)
    (hname : Sel.Name = "HandleFunc")
    (hbody : token.isStringBody s.data = true) (hne : s ≠ "")
    (hin : ast.Node.CallExpr (.SelectorExpr X Sel)
        (.BasicLit p .STRING ("\"" ++ s ++ "\"") :: rest) ∈ ast.preorder file) :
    ∃ nd : Node, nd.Type_ = "Endpoint" ∧ nd.Method = "GET" ∧
      (∀ r' : ExtractionResult,
        extractHTTPHandlers.visit filePath fset r'
            (some (.CallExpr (.SelectorExpr X Sel)
              (.BasicLit p .STRING ("\"" ++ s ++ "\"") :: rest)))
          = ({ r' with Nodes := r'.Nodes ++ [nd] }, true)) ∧
      nd ∈ (extractHTTPHandlers file filePath fset r).Nodes := by
  have hroute : Sel.Name ∈ routeNames := by rw [hname]; decide
  have hem := extractHTTPHandlers_emitted_route filePath fset X Sel p .STRING
    ("\"" ++ s ++ "\"") rest hroute (strings.Trim_quoted_ne_empty s hbody hne)
  obtain ⟨nd, hem, hty, hm⟩ : ∃ nd : Node,
      extractHTTPHandlers.emitted filePath fset (.CallExpr (.SelectorExpr X Sel)
        (.BasicLit p .STRING ("\"" ++ s ++ "\"") :: rest)) = [nd] ∧
      nd.Type_ = "Endpoint" ∧
      nd.Method = (if Sel.Name = "HandleFunc" then "GET" else Sel.Name) := ⟨_, hem, rfl, rfl⟩
  refine ⟨nd, hty, by simpa [hname] using hm, fun r' => ?_, ?_⟩
  · rw [extractHTTPHandlers_visit_eq, hem]
  · exact extractHTTPHandlers_mem_of_emitted file filePath fset r _ nd hin (by simp [hem])

/-- C2 at `http.HandleFunc("/", h)`: one Endpoint node with method GET. -/
theorem C2_handlefunc_emits_default_get_witness :
    ∃ nd : Node, nd.Type_ = "Endpoint" ∧ nd.Method = "GET" ∧
      (∀ r' : ExtractionResult,
        extractHTTPHandlers.visit "a.go" Sample.oneLine r' (some Sample.handleFunc)
          = ({ r' with Nodes := r'.Nodes ++ [nd] }, true)) ∧
      nd ∈ (extractHTTPHandlers (Sample.file [Sample.handleFunc]) "a.go" Sample.oneLine
        Sample.empty).Nodes :=
  C2_handlefunc_emits_default_get (Sample.file [Sample.handleFunc]) "a.go" Sample.oneLine
    Sample.empty (.Ident ⟨1, "http"⟩) ⟨6, "HandleFunc"⟩ 17 "/" [.Ident ⟨22, "h"⟩] rfl
    (by decide) (by decide) (List.Mem.tail _ (List.Mem.head _))

/-- C3: a call whose callee is not a selector, or is a selector whose name is
not exactly one of GET, POST, PUT, DELETE, PATCH, HandleFunc, makes the closure
of `extractHTTPHandlers` append nothing; and every Endpoint node of a run's
result has its method among GET, POST, PUT, DELETE, PATCH. -/
theorem C3_only_route_calls_emit (file : ast.Node) (filePath : String)
    (fset : token.FileSet) :
    (∀ (Fun : ast.Node) (Args : List ast.Node) (r' : ExtractionResult),
      (∀ X Sel, Fun = .SelectorExpr X Sel → Sel.Name ∉ routeNames) →
      extractHTTPHandlers.visit filePath fset r' (some (.CallExpr Fun Args)) = (r', true)) ∧
    (∀ nd ∈ (mainResult file filePath fset).Nodes,
      nd.Type_ = "Endpoint" → nd.Method ∈ verbNames) := by
  constructor
  · intro Fun Args r' h
    rw [extractHTTPHandlers_visit_eq]
    have hem : extractHTTPHandlers.emitted filePath fset (.CallExpr Fun Args) = [] := by
      rw [List.eq_nil_iff_forall_not_mem]
      intro nd hnd
      obtain ⟨X, Sel, p, k, v, rest, heq, hname, -⟩ :=
        extractHTTPHandlers_emitted_inv filePath fset _ nd hnd
      injection heq with hF hA
      exact h X Sel hF hname
    simp [hem]
  · intro nd hnd hty
    rw [mainResult_eq] at hnd
    simp only [List.mem_append, List.mem_flatMap] at hnd
    rcases hnd with ⟨n, -, hn⟩ | ⟨n, -, hn⟩
    · obtain ⟨X, Sel, p, k, v, rest, -, hname, -, -, rfl⟩ :=
        extractHTTPHandlers_emitted_inv filePath fset n nd hn
      simp only [routeNames, List.mem_cons, List.mem_singleton, List.not_mem_nil,
        or_false] at hname
      rcases hname with h | h | h | h | h | h <;> simp [h, verbNames]
    · obtain ⟨Name, tp, s, o, Fields, -, -, -, rfl⟩ :=
        extractGORMModels_emitted_inv filePath fset n nd hn
      simp at hty

/-- C3 at the bare call `register("/x")` and at `SomeOther.Method("/x")`: nothing
is appended; and the Endpoint of `Router.POST("/users")` has a vocabulary verb. -/
theorem C3_only_route_calls_emit_witness :
    extractHTTPHandlers.visit "a.go" Sample.oneLine Sample.empty (some Sample.bareCall)
      = (Sample.empty, true) ∧
    extractHTTPHandlers.visit "a.go" Sample.oneLine Sample.empty (some Sample.otherMethod)
      = (Sample.empty, true) ∧
    "POST" ∈ verbNames :=
  ⟨(C3_only_route_calls_emit (Sample.file []) "a.go" Sample.oneLine).1
      (.Ident ⟨1, "register"⟩) _ _ (fun _ _ h => by cases h),
    (C3_only_route_calls_emit (Sample.file []) "a.go" Sample.oneLine).1
      (.SelectorExpr (.Ident ⟨1, "SomeOther"⟩) ⟨11, "Method"⟩) _ _
      (fun _ _ h => by cases h; decide),
    (C3_only_route_calls_emit (Sample.file [Sample.routerPOST]) "a.go" Sample.lines40).2
      { Type_ := "Endpoint", ID := "a.go:POST:2", Name := "POST /users", FilePath := "a.go",
        LineNumber := 2, Method := "POST", Path := "/users", Parameters := some [],
        TableName := "", Columns := none, Metadata := [("framework", "Go HTTP")],
        Confidence := "HIGH" } (by decide) rfl⟩

/-- C4, the failing input: for `cache.GET(42)`, whose first argument is an
integer literal and not a string literal, a run still emits an Endpoint node,
with path `42`. -/
theorem C4_integer_literal_emits_endpoint :
    (mainResult (Sample.file [Sample.cacheGET]) "a.go" Sample.oneLine).Nodes.map
        (fun nd => (nd.Type_, nd.Name, nd.Method, nd.Path))
      = [("Endpoint", "GET 42", "GET", "42")] := by
  decide

/-! ## C5-C7: the model detector -/

theorem extractGORMModels_isGORMModel_eq (Fields : List ast.Field) (acc : Bool) :
    extractGORMModels.isGORMModel Fields acc = (Fields.any isGormModelEmbedding || acc) := by
  induction Fields with
  | nil => simp [extractGORMModels.isGORMModel]
  | cons fld rest ih =>
    obtain ⟨Names, Typ, Tag⟩ := fld
    cases Names with
    | nil =>
      cases Typ with
      | SelectorExpr X Sel =>
        cases X with
        | Ident x =>
          by_cases h : x.Name = "gorm" ∧ Sel.Name = "Model"
          · simp [extractGORMModels.isGORMModel, isGormModelEmbedding, ast.Field.Names,
              ast.Field.Typ, h]
          · have h2 : (x.Name == "gorm" && Sel.Name == "Model") = false := by
              simpa using h
            simp [extractGORMModels.isGORMModel, isGormModelEmbedding, ast.Field.Names,
              ast.Field.Typ, h, h2, ih]
        | _ =>
          simp [extractGORMModels.isGORMModel, isGormModelEmbedding, ast.Field.Names,
            ast.Field.Typ, ih]
      | _ =>
        simp [extractGORMModels.isGORMModel, isGormModelEmbedding, ast.Field.Names,
          ast.Field.Typ, ih]
    | cons x xs =>
      simp [extractGORMModels.isGORMModel, isGormModelEmbedding, ast.Field.Names, ih]

theorem extractGORMModels_emitted_model (filePath : String) (fset : token.FileSet)
    (Name : ast.Ident) (tp : Option ast.Node) (s o : token.Pos) (Fields : List ast.Field)
    (h : Fields.any isGormModelEmbedding = true) :
    extractGORMModels.emitted filePath fset (.TypeSpec Name tp (.StructType s o Fields)) =
      [{ Type_ := "DatabaseModel"
         ID := filePath ++ ":" ++ Name.Name ++ ":" ++ fmt.itoa (fset.Line Name.NamePos)
         Name := Name.Name
         FilePath := filePath
         LineNumber := fset.Line Name.NamePos
         Method := ""
         Path := ""
         Parameters := none
         TableName := strings.ToLower Name.Name ++ "s"
         Columns := some (extractGORMModels.columns Fields [])
         Metadata := [("framework", "GORM")]
         Confidence := "HIGH" }] := by
  simp [extractGORMModels.emitted, extractGORMModels.visit,
    extractGORMModels_isGORMModel_eq, h, ast.Node.Pos]

theorem extractGORMModels_emitted_not_model (filePath : String) (fset : token.FileSet)
    (n : ast.Node) (h : modelConditions n = false) :
    extractGORMModels.emitted filePath fset n = [] := by
  rw [List.eq_nil_iff_forall_not_mem]
  intro nd hnd
  obtain ⟨Name, tp, s, o, Fields, rfl, hm, -⟩ :=
    extractGORMModels_emitted_inv filePath fset n nd hnd
  rw [extractGORMModels_isGORMModel_eq] at hm
  simp [modelConditions] at h hm
  obtain ⟨fld, hf, hfld⟩ := hm
  rw [h fld hf] at hfld
  exact absurd hfld (by decide)

theorem extractGORMModels_mem_of_emitted (file : ast.Node) (filePath : String)
    (fset : token.FileSet) (r : ExtractionResult) (c : ast.Node) (nd : Node)
    (hin : c ∈ ast.preorder file) (hnd : nd ∈ extractGORMModels.emitted filePath fset c) :
    nd ∈ (extractGORMModels file filePath fset r).Nodes := by
  rw [extractGORMModels_eq]
  exact List.mem_append_right _ (List.mem_flatMap.mpr ⟨c, hin, hnd⟩)

/-- C5: for a type declaration whose type is a struct, the closure of
`extractGORMModels` appends a node, exactly one and of type DatabaseModel, if
the struct has a field that embeds `gorm.Model` (a nameless field whose type
is the selector `gorm.Model`), and appends nothing otherwise; for a type
declaration that is not a struct it appends nothing; and the node of a
qualifying declaration of the tree is in the result. -/
theorem C5_model_iff_embeds_gorm_model (file : ast.Node) (filePath : String)
    (fset : token.FileSet) (r : ExtractionResult) :
    (∀ (Name : ast.Ident) (tp : Option ast.Node) (s o : token.Pos) (Fields : List ast.Field)
        (r' : ExtractionResult),
      (Fields.any isGormModelEmbedding = true →
        ∃ nd : Node, nd.Type_ = "DatabaseModel" ∧
          extractGORMModels.visit filePath fset r'
              (some (.TypeSpec Name tp (.StructType s o Fields)))
            = ({ r' with Nodes := r'.Nodes ++ [nd] }, true) ∧
          (ast.Node.TypeSpec Name tp (.StructType s o Fields) ∈ ast.preorder file →
            nd ∈ (extractGORMModels file filePath fset r).Nodes)) ∧
      (Fields.any isGormModelEmbedding = false →
        extractGORMModels.visit filePath fset r'
            (some (.TypeSpec Name tp (.StructType s o Fields))) = (r', true))) ∧
    (∀ (Name : ast.Ident) (tp : Option ast.Node) (Typ : ast.Node) (r' : ExtractionResult),
      (∀ s o Fields, Typ ≠ .StructType s o Fields) →
      extractGORMModels.visit filePath fset r' (some (.TypeSpec Name tp Typ)) = (r', true)) := by
  refine ⟨fun Name tp s o Fields r' => ⟨fun h => ?_, fun h => ?_⟩, fun Name tp Typ r' h => ?_⟩
  · have hem := extractGORMModels_emitted_model filePath fset Name tp s o Fields h
    obtain ⟨nd, hem, hty⟩ : ∃ nd : Node,
        extractGORMModels.emitted filePath fset (.TypeSpec Name tp (.StructType s o Fields))
          = [nd] ∧ nd.Type_ = "DatabaseModel" := ⟨_, hem, rfl⟩
    refine ⟨nd, hty, ?_, fun hin => ?_⟩
    · rw [extractGORMModels_visit_eq, hem]
    · exact extractGORMModels_mem_of_emitted file filePath fset r _ nd hin (by simp [hem])
  · rw [extractGORMModels_visit_eq,
      extractGORMModels_emitted_not_model filePath fset _ (by simpa [modelConditions] using h)]
    simp
  · rw [extractGORMModels_visit_eq, extractGORMModels_emitted_not_model filePath fset _ ?_]
    · simp
    · cases Typ with
      | StructType s o Fields => exact absurd rfl (h s o Fields)
      | _ => rfl

/-- C5 at sample declarations: `User` (embedding `gorm.Model`) and a struct
embedding it twice each give one node; `*gorm.Model`, `other.Model`,
`gorm.model`, a bare `Model`, a named field of type `gorm.Model`, a struct
without embedding and the non-struct `type ID int` give none. -/
theorem C5_model_iff_embeds_gorm_model_witness :
    (∃ nd : Node, nd.Type_ = "DatabaseModel" ∧
      extractGORMModels.visit "a.go" Sample.oneLine Sample.empty (some Sample.userStruct)
        = ({ Sample.empty with Nodes := Sample.empty.Nodes ++ [nd] }, true) ∧
      (Sample.userStruct ∈ ast.preorder (Sample.file [Sample.userStruct]) →
        nd ∈ (extractGORMModels (Sample.file [Sample.userStruct]) "a.go" Sample.oneLine
          Sample.empty).Nodes)) ∧
    (∃ nd : Node, nd.Type_ = "DatabaseModel" ∧
      extractGORMModels.visit "a.go" Sample.oneLine Sample.empty
          (some (Sample.structDecl 6 "Twice" [Sample.gormModel 20, Sample.gormModel 32]))
        = ({ Sample.empty with Nodes := Sample.empty.Nodes ++ [nd] }, true) ∧
      (Sample.structDecl 6 "Twice" [Sample.gormModel 20, Sample.gormModel 32]
          ∈ ast.preorder (Sample.file [Sample.userStruct]) →
        nd ∈ (extractGORMModels (Sample.file [Sample.userStruct]) "a.go" Sample.oneLine
          Sample.empty).Nodes)) ∧
    (∀ fld ∈ [Sample.starGormModel, Sample.otherModel, Sample.gormLowerModel,
        Sample.bareModel, Sample.namedGormModel],
      extractGORMModels.visit "a.go" Sample.oneLine Sample.empty
        (some (Sample.structDecl 6 "T" [fld])) = (Sample.empty, true)) ∧
    extractGORMModels.visit "a.go" Sample.oneLine Sample.empty (some Sample.plainStruct)
      = (Sample.empty, true) ∧
    extractGORMModels.visit "a.go" Sample.oneLine Sample.empty (some Sample.intDecl)
      = (Sample.empty, true) :=
  ⟨((C5_model_iff_embeds_gorm_model (Sample.file [Sample.userStruct]) "a.go" Sample.oneLine
      Sample.empty).1 ⟨6, "User"⟩ none 11 18 Sample.userFields Sample.empty).1 (by decide),
    ((C5_model_iff_embeds_gorm_model (Sample.file [Sample.userStruct]) "a.go" Sample.oneLine
      Sample.empty).1 ⟨6, "Twice"⟩ none 12 19 [Sample.gormModel 20, Sample.gormModel 32]
      Sample.empty).1 (by decide),
    fun fld hfld =>
      ((C5_model_iff_embeds_gorm_model (Sample.file [Sample.userStruct]) "a.go"
        Sample.oneLine Sample.empty).1 ⟨6, "T"⟩ none 8 15 [fld] Sample.empty).2 (by
          simp only [List.mem_cons, List.mem_singleton, List.not_mem_nil, or_false] at hfld
          rcases hfld with h | h | h | h | h <;> rw [h] <;> decide),
    ((C5_model_iff_embeds_gorm_model (Sample.file [Sample.userStruct]) "a.go" Sample.oneLine
      Sample.empty).1 ⟨6, "Plain"⟩ none 12 19 Sample.plainFields Sample.empty).2 (by decide),
    (C5_model_iff_embeds_gorm_model (Sample.file [Sample.userStruct]) "a.go" Sample.oneLine
      Sample.empty).2 ⟨6, "ID"⟩ none (.Ident ⟨9, "int"⟩) Sample.empty
      (fun _ _ _ h => by cases h)⟩

/-- C6, the failing input: for `type Pair struct { gorm.Model; A, B int }` the
columns of the emitted node are `A:int` alone, the second name `B` of the
field declaration has no entry; for `User` the columns are `Name:string`,
`Age:int`. -/
theorem C6_only_first_name_of_a_field_is_a_column :
    (mainResult (Sample.file [Sample.pairStruct]) "a.go" Sample.oneLine).Nodes.map
        (fun nd => (nd.Name, nd.Columns)) = [("Pair", some ["A:int"])] ∧
    (mainResult (Sample.file [Sample.userStruct]) "a.go" Sample.oneLine).Nodes.map
        (fun nd => (nd.Name, nd.Columns)) = [("User", some ["Name:string", "Age:int"])] := by
  decide

/-- C7: a node the closure of `extractGORMModels` appends for a type declared
with name `N` has name `N` and table name the lower-cased `N` followed by
`s`, where lower-casing is `strings.ToLower`, the map of `unicode.ToLower`
over the characters of `N`; every DatabaseModel node of a run's result is such
a node, for a type declaration of the tree; so `User` gives `users`, `Category`
gives `categorys` and `Address` gives `addresss`, and outside ASCII `Ärger`
gives `ärgers`, also in a run on `type Ärger struct { gorm.Model }`. -/
theorem C7_name_and_table_name (file : ast.Node) (filePath : String)
    (fset : token.FileSet) :
    (∀ (Name : ast.Ident) (tp : Option ast.Node) (Typ : ast.Node) (nd : Node),
      nd ∈ extractGORMModels.emitted filePath fset (.TypeSpec Name tp Typ) →
      nd.Name = Name.Name ∧ nd.TableName = strings.ToLower Name.Name ++ "s" ∧
      nd.TableName = String.mk (Name.Name.data.map unicode.ToLower ++ ['s'])) ∧
    (∀ nd ∈ (mainResult file filePath fset).Nodes, nd.Type_ = "DatabaseModel" →
      ∃ Name tp Typ, ast.Node.TypeSpec Name tp Typ ∈ ast.preorder file ∧
        nd ∈ extractGORMModels.emitted filePath fset (.TypeSpec Name tp Typ)) ∧
    strings.ToLower "User" ++ "s" = "users" ∧
    strings.ToLower "Category" ++ "s" = "categorys" ∧
    strings.ToLower "Address" ++ "s" = "addresss" ∧
    strings.ToLower "Ärger" ++ "s" = "ärgers" ∧
    strings.ToLower "ΣΟΦΙΑ" ++ "s" = "σοφιαs" ∧
    (mainResult (Sample.file [Sample.aergerStruct]) "a.go" Sample.oneLine).Nodes.map
        (fun nd => (nd.Name, nd.TableName)) = [("Ärger", "ärgers")] := by
  refine ⟨fun Name tp Typ nd hnd => ?_, fun nd hnd hty => ?_, by decide, by decide, by decide,
    by decide, by decide, by decide⟩
  · obtain ⟨Name', tp', s, o, Fields, heq, -, -, rfl⟩ :=
      extractGORMModels_emitted_inv filePath fset _ nd hnd
    injection heq with h1 h2 h3
    subst h1
    exact ⟨rfl, rfl, rfl⟩
  · rw [mainResult_eq] at hnd
    simp only [List.mem_append, List.mem_flatMap] at hnd
    rcases hnd with ⟨n, -, hn⟩ | ⟨n, hin, hn⟩
    · obtain ⟨X, Sel, p, k, v, rest, -, -, -, -, rfl⟩ :=
        extractHTTPHandlers_emitted_inv filePath fset n nd hn
      simp at hty
    · obtain ⟨Name, tp, s, o, Fields, rfl, -⟩ :=
        extractGORMModels_emitted_inv filePath fset n nd hn
      exact ⟨Name, tp, _, hin, hn⟩

/-- C7 at `type User struct { gorm.Model; Name string; Age int }`: the node has
name `User` and table name `users`. -/
theorem C7_name_and_table_name_witness :
    Sample.userNode.Name = "User" ∧ Sample.userNode.TableName = "users" ∧
    Sample.userNode.TableName = String.mk ("User".data.map unicode.ToLower ++ ['s']) :=
  (C7_name_and_table_name (Sample.file [Sample.userStruct]) "a.go" Sample.oneLine).1
    ⟨6, "User"⟩ none (.StructType 11 18 Sample.userFields) Sample.userNode (by decide)

/-! ## C8: node ids -/

theorem digitChar_value : ∀ k, k < 10 →
    (Nat.digitChar k).toNat - 48 = k ∧ Nat.digitChar k ≠ ':' := by
  decide

theorem toDigitsCore_spec (fuel : Nat) : ∀ (n : Nat) (ds : List Char), n < fuel →
    ∃ l, Nat.toDigitsCore 10 fuel n ds = l ++ ds ∧ ':' ∉ l ∧ decimalValue l = n := by
  induction fuel with
  | zero => intro n ds h; omega
  | succ fuel ih =>
    intro n ds h
    have hd := digitChar_value (n % 10) (Nat.mod_lt _ (by decide))
    unfold Nat.toDigitsCore
    by_cases h0 : n / 10 = 0
    · refine ⟨[Nat.digitChar (n % 10)], by simp [h0], by simpa using hd.2.symm, ?_⟩
      simp only [decimalValue, List.foldl, hd.1]
      omega
    · obtain ⟨l, hl, hc, hv⟩ := ih (n / 10) (Nat.digitChar (n % 10) :: ds) (by omega)
      refine ⟨l ++ [Nat.digitChar (n % 10)], by simp [h0, hl], ?_, ?_⟩
      · simp only [List.mem_append, List.mem_singleton, not_or]
        exact ⟨hc, hd.2.symm⟩
      · unfold decimalValue at hv ⊢
        rw [List.foldl_append, hv]
        simp only [List.foldl, hd.1]
        omega

theorem itoa_spec (n : Nat) : ':' ∉ (fmt.itoa n).data ∧ decimalValue (fmt.itoa n).data = n := by
  obtain ⟨l, hl, hc, hv⟩ := toDigitsCore_spec (n + 1) n [] (by omega)
  have : (fmt.itoa n).data = l := by
    simp [fmt.itoa, Nat.repr, Nat.toDigits, hl, List.asString]
  rw [this]
  exact ⟨hc, hv⟩

theorem itoa_injective (m n : Nat) (h : fmt.itoa m = fmt.itoa n) : m = n := by
  rw [← (itoa_spec m).2, ← (itoa_spec n).2, h]

theorem append_cons_inj_of_not_mem {α : Type} (c : α) :
    ∀ (xs xs' ys ys' : List α), c ∉ xs → c ∉ xs' → xs ++ c :: ys = xs' ++ c :: ys' →
      xs = xs' ∧ ys = ys'
  | [], [], ys, ys', _, _, h => by simpa using h
  | [], x :: xs', ys, ys', _, h2, h => by
    simp at h h2
    exact absurd h.1 h2.1
  | x :: xs, [], ys, ys', h1, _, h => by
    simp at h h1
    exact absurd h.1.symm h1.1
  | x :: xs, x' :: xs', ys, ys', h1, h2, h => by
    simp at h h1 h2
    obtain ⟨rfl, h⟩ := h
    obtain ⟨rfl, rfl⟩ := append_cons_inj_of_not_mem c xs xs' ys ys' h1.2 h2.2 h
    exact ⟨rfl, rfl⟩

theorem id_eq_iff (filePath d1 d2 : String) (l1 l2 : Nat) :
    filePath ++ ":" ++ d1 ++ ":" ++ fmt.itoa l1 = filePath ++ ":" ++ d2 ++ ":" ++ fmt.itoa l2
      ↔ d1 = d2 ∧ l1 = l2 := by
  constructor
  · intro h
    rw [String.ext_iff] at h
    simp only [String.data_append, List.append_assoc, List.append_cancel_left_eq] at h
    have h' : (fmt.itoa l1).data.reverse ++ ':' :: d1.data.reverse
        = (fmt.itoa l2).data.reverse ++ ':' :: d2.data.reverse := by
      have := congrArg List.reverse h
      simpa using this
    obtain ⟨e1, e2⟩ := append_cons_inj_of_not_mem ':' _ _ _ _
      (by simpa using (itoa_spec l1).1) (by simpa using (itoa_spec l2).1) h'
    refine ⟨String.ext (List.reverse_injective e2), itoa_injective l1 l2 (String.ext ?_)⟩
    exact List.reverse_injective e1
  · rintro ⟨rfl, rfl⟩
    rfl

theorem mainResult_id_spec (file : ast.Node) (filePath : String) (fset : token.FileSet)
    (nd : Node) (hnd : nd ∈ (mainResult file filePath fset).Nodes) :
    nd.ID = filePath ++ ":" ++ nd.discriminant ++ ":" ++ fmt.itoa nd.LineNumber := by
  rw [mainResult_eq] at hnd
  simp only [List.mem_append, List.mem_flatMap] at hnd
  rcases hnd with ⟨n, -, hn⟩ | ⟨n, -, hn⟩
  · obtain ⟨X, Sel, p, k, v, rest, -, -, -, -, rfl⟩ :=
      extractHTTPHandlers_emitted_inv filePath fset n nd hn
    simp [Node.discriminant]
  · obtain ⟨Name, tp, s, o, Fields, -, -, -, rfl⟩ :=
      extractGORMModels_emitted_inv filePath fset n nd hn
    simp [Node.discriminant]

/-- C8, the counterexample: the chained registration
`r.GET("/a", h).GET("/b", h)` gives two Endpoint nodes with the same id
`a.go:GET:1`, so the ids of the result are not pairwise distinct. -/
theorem C8_ids_not_pairwise_distinct :
    (mainResult (Sample.file [Sample.chainedGET]) "a.go" Sample.oneLine).Nodes.map
        (fun nd => (nd.ID, nd.Path)) = [("a.go:GET:1", "/b"), ("a.go:GET:1", "/a")] ∧
    ¬ ((mainResult (Sample.file [Sample.chainedGET]) "a.go" Sample.oneLine).Nodes.map
        (fun nd => nd.ID)).Nodup := by
  decide

/-- C8, amended: two nodes of a run's result have the same id exactly when
they have the same discriminant (the verb of an Endpoint, the type name of a
DatabaseModel) and the same line; so the ids are pairwise distinct whenever no
two nodes of the result share both discriminant and line. -/
theorem C8_ids_distinct_up_to_discriminant_and_line (file : ast.Node) (filePath : String)
    (fset : token.FileSet) :
    (∀ a ∈ (mainResult file filePath fset).Nodes, ∀ b ∈ (mainResult file filePath fset).Nodes,
      (a.ID = b.ID ↔ a.discriminant = b.discriminant ∧ a.LineNumber = b.LineNumber)) ∧
    (((mainResult file filePath fset).Nodes.map
        (fun nd => (nd.discriminant, nd.LineNumber))).Nodup →
      ((mainResult file filePath fset).Nodes.map (fun nd => nd.ID)).Nodup) := by
  have key : ∀ a ∈ (mainResult file filePath fset).Nodes,
      ∀ b ∈ (mainResult file filePath fset).Nodes,
      (a.ID = b.ID ↔ a.discriminant = b.discriminant ∧ a.LineNumber = b.LineNumber) := by
    intro a ha b hb
    rw [mainResult_id_spec file filePath fset a ha, mainResult_id_spec file filePath fset b hb]
    exact id_eq_iff filePath _ _ _ _
  refine ⟨key, fun h => ?_⟩
  refine List.Nodup.map_on (fun a ha b hb hab => ?_) (List.Nodup.of_map _ h)
  have hpair := (key a ha b hb).mp hab
  exact List.inj_on_of_nodup_map h ha hb (Prod.ext hpair.1 hpair.2)

/-- C8 amended, at a file with `Router.GET("/users")` on line 1,
`Router.POST("/users")` on line 2 and `type User struct { ... }` on line 3: the
three ids are pairwise distinct. -/
theorem C8_ids_distinct_up_to_discriminant_and_line_witness :
    ((mainResult (Sample.file [Sample.routerGET, Sample.routerPOST,
        Sample.structDecl 86 "User" Sample.userFields]) "a.go" Sample.lines40).Nodes.map
      (fun nd => nd.ID)).Nodup :=
  (C8_ids_distinct_up_to_discriminant_and_line (Sample.file [Sample.routerGET,
    Sample.routerPOST, Sample.structDecl 86 "User" Sample.userFields]) "a.go"
    Sample.lines40).2 (by decide)

/-! ## C9: the type renderer -/

/-- C9: `exprToString` is defined on every expression; an identifier renders
as its name, a selector `X.Y` as the rendering of `X`, a dot and `Y`, a
pointer as `*` and the rendering of its base, an array or slice (with or
without a length) as `[]` and the rendering of its element, and every other
shape as `unknown`; so `T`, a pointer to `T` and a slice of `T` render as `T`,
`*T` and `[]T`. -/
theorem C9_exprToString_renders :
    (∀ x : ast.Ident, exprToString (.Ident x) = x.Name) ∧
    (∀ (X : ast.Node) (Sel : ast.Ident),
      exprToString (.SelectorExpr X Sel) = exprToString X ++ "." ++ Sel.Name) ∧
    (∀ (p : token.Pos) (X : ast.Node), exprToString (.StarExpr p X) = "*" ++ exprToString X) ∧
    (∀ (p : token.Pos) (Len : Option ast.Node) (Elt : ast.Node),
      exprToString (.ArrayType p Len Elt) = "[]" ++ exprToString Elt) ∧
    (∀ (p : token.Pos) (k : token.Token) (v : String),
      exprToString (.BasicLit p k v) = "unknown") ∧
    (∀ (Fun : ast.Node) (Args : List ast.Node), exprToString (.CallExpr Fun Args) = "unknown") ∧
    (∀ (s o : token.Pos) (Fields : List ast.Field),
      exprToString (.StructType s o Fields) = "unknown") ∧
    (∀ (o : token.Pos) (Fields : List ast.Field),
      exprToString (.FieldList o Fields) = "unknown") ∧
    (∀ fld : ast.Field, exprToString (.Field fld) = "unknown") ∧
    (∀ (Name : ast.Ident) (tp : Option ast.Node) (Typ : ast.Node),
      exprToString (.TypeSpec Name tp Typ) = "unknown") ∧
    (∀ (p : token.Pos) (children : List ast.Node),
      exprToString (.Other p children) = "unknown") ∧
    (∀ (p : token.Pos) (T : String), exprToString (.Ident ⟨p, T⟩) = T) ∧
    (∀ (p q : token.Pos) (T : String),
      exprToString (.StarExpr q (.Ident ⟨p, T⟩)) = "*" ++ T) ∧
    (∀ (p q : token.Pos) (Len : Option ast.Node) (T : String),
      exprToString (.ArrayType q Len (.Ident ⟨p, T⟩)) = "[]" ++ T) := by
  refine ⟨?_, ?_, ?_, ?_, ?_, ?_, ?_, ?_, ?_, ?_, ?_, ?_, ?_, ?_⟩ <;> intros <;> rfl

/-! ## C10: a file without matches -/

theorem extractHTTPHandlers_emitted_not_conditions (filePath : String) (fset : token.FileSet)
    (n : ast.Node) (h : routeConditions n = false) :
    extractHTTPHandlers.emitted filePath fset n = [] := by
  rw [List.eq_nil_iff_forall_not_mem]
  intro nd hnd
  obtain ⟨X, Sel, p, k, v, rest, rfl, hname, hv, -⟩ :=
    extractHTTPHandlers_emitted_inv filePath fset n nd hnd
  rw [Ne, strings.Trim_eq_empty_iff] at hv
  simp only [routeConditions, Bool.and_eq_false_iff, decide_eq_false_iff_not] at h
  rcases h with h | h
  · exact h hname
  · apply hv
    intro c hc
    have := List.any_eq_false.mp h c hc
    simpa using this

/-- C10: when no node of the tree satisfies the route conditions (a call with
a selector callee named in the vocabulary and a literal first argument that is
not empty between its quotes) and no node is a struct type declaration
embedding `gorm.Model`, the run yields the result with no nodes, no edges and
confidence `HIGH`. -/
theorem C10_no_match_gives_empty_result (file : ast.Node) (filePath : String)
    (fset : token.FileSet)
    (hroute : ∀ n ∈ ast.preorder file, routeConditions n = false)
    (hmodel : ∀ n ∈ ast.preorder file, modelConditions n = false) :
    mainResult file filePath fset = { Nodes := [], Edges := [], Confidence := "HIGH" } := by
  rw [mainResult_eq]
  have h1 : (ast.preorder file).flatMap (extractHTTPHandlers.emitted filePath fset) = [] := by
    rw [List.flatMap_eq_nil_iff]
    exact fun n hn => extractHTTPHandlers_emitted_not_conditions filePath fset n (hroute n hn)
  have h2 : (ast.preorder file).flatMap (extractGORMModels.emitted filePath fset) = [] := by
    rw [List.flatMap_eq_nil_iff]
    exact fun n hn => extractGORMModels_emitted_not_model filePath fset n (hmodel n hn)
  rw [h1, h2]
  rfl

/-- C10 at a file with `SomeOther.Method("/x")`, `register("/x")`,
`Router.GET(pathVar)`, `type Plain struct { Name string }` and `type ID int`:
the result is empty with confidence `HIGH`. -/
theorem C10_no_match_gives_empty_result_witness :
    mainResult (Sample.file [Sample.otherMethod, Sample.bareCall, Sample.routerGETvar,
        Sample.plainStruct, Sample.intDecl]) "a.go" Sample.oneLine
      = { Nodes := [], Edges := [], Confidence := "HIGH" } :=
  C10_no_match_gives_empty_result (Sample.file [Sample.otherMethod, Sample.bareCall,
    Sample.routerGETvar, Sample.plainStruct, Sample.intDecl]) "a.go" Sample.oneLine
    (by decide) (by decide)

/-! ## C11-C14: the fields of the emitted nodes -/

/-- C11, the failing input: for `Router.GET("/say\"hi\"")`, a string literal
whose contents `/say\"hi\"` end with an escaped double quote, the path of the
emitted node is `/say\"hi\`: the closing quote of the contents is stripped
together with the enclosing one.  Contents that begin with an escaped double
quote, as in `Router.GET("\"hi\"/x")`, are kept whole. -/
theorem C11_trailing_escaped_quote_is_stripped :
    token.isStringBody "/say\\\"hi\\\"".data = true ∧
    (mainResult (Sample.file [Sample.escapedTail]) "a.go" Sample.oneLine).Nodes.map
        (fun nd => (nd.Method, nd.Path)) = [("GET", "/say\\\"hi\\")] ∧
    "/say\\\"hi\\" ≠ "/say\\\"hi\\\"" ∧
    (mainResult (Sample.file [Sample.escapedHead]) "a.go" Sample.oneLine).Nodes.map
        (fun nd => (nd.Method, nd.Path)) = [("GET", "\\\"hi\\\"/x")] ∧
    (mainResult (Sample.file [Sample.routerGET]) "a.go" Sample.oneLine).Nodes.map
        (fun nd => (nd.Method, nd.Path)) = [("GET", "/users")] := by
  decide

theorem mainResult_mem_cases (file : ast.Node) (filePath : String) (fset : token.FileSet)
    (nd : Node) (hnd : nd ∈ (mainResult file filePath fset).Nodes) :
    (∃ n ∈ ast.preorder file, nd ∈ extractHTTPHandlers.emitted filePath fset n) ∨
    (∃ n ∈ ast.preorder file, nd ∈ extractGORMModels.emitted filePath fset n) := by
  rw [mainResult_eq] at hnd
  simp only [List.mem_append, List.mem_flatMap] at hnd
  exact hnd

/-- C12: every node of a run's result is labelled from the file path, its
discriminant and its line.  An Endpoint node comes from a call of the tree and
has id `filePath:method:line` and name `method path`; a DatabaseModel node
comes from a type declaration of the tree and has that declaration's name and
id `filePath:typeName:line`; in both cases the node's file path is the input
path and its line number is the line of the position of the call or of the
type declaration.  A second run on the same tree and path gives the same
ids. -/
theorem C12_node_labels (file : ast.Node) (filePath : String) (fset : token.FileSet) :
    (∀ nd ∈ (mainResult file filePath fset).Nodes,
      (nd.Type_ = "Endpoint" ∧
        ∃ call ∈ ast.preorder file,
          nd ∈ extractHTTPHandlers.emitted filePath fset call ∧
          nd.ID = filePath ++ ":" ++ nd.Method ++ ":" ++ fmt.itoa nd.LineNumber ∧
          nd.Name = nd.Method ++ " " ++ nd.Path ∧
          nd.FilePath = filePath ∧
          nd.LineNumber = fset.Line call.Pos) ∨
      (nd.Type_ = "DatabaseModel" ∧
        ∃ Name tp Typ, ast.Node.TypeSpec Name tp Typ ∈ ast.preorder file ∧
          nd ∈ extractGORMModels.emitted filePath fset (.TypeSpec Name tp Typ) ∧
          nd.Name = Name.Name ∧
          nd.ID = filePath ++ ":" ++ Name.Name ++ ":" ++ fmt.itoa nd.LineNumber ∧
          nd.FilePath = filePath ∧
          nd.LineNumber = fset.Line (ast.Node.TypeSpec Name tp Typ).Pos)) ∧
    (∀ first second : ExtractionResult,
      first = mainResult file filePath fset → second = mainResult file filePath fset →
      first.Nodes.map (fun nd => nd.ID) = second.Nodes.map (fun nd => nd.ID)) := by
  refine ⟨fun nd hnd => ?_, fun first second h1 h2 => by rw [h1, h2]⟩
  rcases mainResult_mem_cases file filePath fset nd hnd with ⟨n, hin, hn⟩ | ⟨n, hin, hn⟩
  · left
    obtain ⟨X, Sel, p, k, v, rest, rfl, -, -, -, rfl⟩ :=
      extractHTTPHandlers_emitted_inv filePath fset n nd hn
    exact ⟨rfl, _, hin, hn, rfl, rfl, rfl, rfl⟩
  · right
    obtain ⟨Name, tp, s, o, Fields, rfl, -, -, rfl⟩ :=
      extractGORMModels_emitted_inv filePath fset n nd hn
    exact ⟨rfl, Name, tp, _, hin, hn, rfl, rfl, rfl, rfl⟩

/-- C12 at `type User struct { gorm.Model; Name string; Age int }` in `a.go`:
the node is a DatabaseModel labelled `a.go:User:1`. -/
theorem C12_node_labels_witness :
    (Sample.userNode.Type_ = "Endpoint" ∧
      ∃ call ∈ ast.preorder (Sample.file [Sample.userStruct]),
        Sample.userNode ∈ extractHTTPHandlers.emitted "a.go" Sample.oneLine call ∧
        Sample.userNode.ID = "a.go" ++ ":" ++ Sample.userNode.Method ++ ":"
          ++ fmt.itoa Sample.userNode.LineNumber ∧
        Sample.userNode.Name = Sample.userNode.Method ++ " " ++ Sample.userNode.Path ∧
        Sample.userNode.FilePath = "a.go" ∧
        Sample.userNode.LineNumber = Sample.oneLine.Line call.Pos) ∨
    (Sample.userNode.Type_ = "DatabaseModel" ∧
      ∃ Name tp Typ, ast.Node.TypeSpec Name tp Typ ∈ ast.preorder (Sample.file [Sample.userStruct]) ∧
        Sample.userNode ∈ extractGORMModels.emitted "a.go" Sample.oneLine
          (.TypeSpec Name tp Typ) ∧
        Sample.userNode.Name = Name.Name ∧
        Sample.userNode.ID = "a.go" ++ ":" ++ Name.Name ++ ":"
          ++ fmt.itoa Sample.userNode.LineNumber ∧
        Sample.userNode.FilePath = "a.go" ∧
        Sample.userNode.LineNumber = Sample.oneLine.Line (ast.Node.TypeSpec Name tp Typ).Pos) :=
  (C12_node_labels (Sample.file [Sample.userStruct]) "a.go" Sample.oneLine).1
    Sample.userNode (by decide)

/-- C13: `extractHTTPHandlers` and `extractGORMModels` leave the edges and the
confidence tag of the result they are given as they are, so the result of a
run has no edges and confidence `HIGH`. -/
theorem C13_edges_and_confidence_untouched (file : ast.Node) (filePath : String)
    (fset : token.FileSet) :
    (∀ r : ExtractionResult,
      (extractHTTPHandlers file filePath fset r).Edges = r.Edges ∧
      (extractHTTPHandlers file filePath fset r).Confidence = r.Confidence) ∧
    (∀ r : ExtractionResult,
      (extractGORMModels file filePath fset r).Edges = r.Edges ∧
      (extractGORMModels file filePath fset r).Confidence = r.Confidence) ∧
    (mainResult file filePath fset).Edges = [] ∧
    (mainResult file filePath fset).Confidence = "HIGH" := by
  refine ⟨fun r => ?_, fun r => ?_, ?_, ?_⟩
  · rw [extractHTTPHandlers_eq]
    exact ⟨rfl, rfl⟩
  · rw [extractGORMModels_eq]
    exact ⟨rfl, rfl⟩
  · rw [mainResult_eq]
  · rw [mainResult_eq]

/-- C14: every node of a run's result has confidence `HIGH`, and every
Endpoint node has a parameters slice that is set (not nil) and empty. -/
theorem C14_node_confidence_and_parameters (file : ast.Node) (filePath : String)
    (fset : token.FileSet) :
    ∀ nd ∈ (mainResult file filePath fset).Nodes,
      nd.Confidence = "HIGH" ∧ (nd.Type_ = "Endpoint" → nd.Parameters = some []) := by
  intro nd hnd
  rcases mainResult_mem_cases file filePath fset nd hnd with ⟨n, -, hn⟩ | ⟨n, -, hn⟩
  · obtain ⟨X, Sel, p, k, v, rest, -, -, -, -, rfl⟩ :=
      extractHTTPHandlers_emitted_inv filePath fset n nd hn
    exact ⟨rfl, fun _ => rfl⟩
  · obtain ⟨Name, tp, s, o, Fields, -, -, -, rfl⟩ :=
      extractGORMModels_emitted_inv filePath fset n nd hn
    exact ⟨rfl, fun h => by simp at h⟩

/-- C14 at `Router.GET("/users")`: the Endpoint node has confidence `HIGH` and
an empty parameters slice. -/
theorem C14_node_confidence_and_parameters_witness :
    Sample.usersEndpoint.Confidence = "HIGH" ∧
    (Sample.usersEndpoint.Type_ = "Endpoint" → Sample.usersEndpoint.Parameters = some []) :=
  C14_node_confidence_and_parameters (Sample.file [Sample.routerGET]) "a.go" Sample.oneLine
    Sample.usersEndpoint (by decide)

/-! ## C15-C17: order and number of the nodes -/

theorem extractHTTPHandlers_emitted_type (filePath : String) (fset : token.FileSet)
    (l : List ast.Node) :
    ∀ nd ∈ l.flatMap (extractHTTPHandlers.emitted filePath fset), nd.Type_ = "Endpoint" := by
  intro nd hnd
  obtain ⟨n, -, hn⟩ := List.mem_flatMap.mp hnd
  obtain ⟨X, Sel, p, k, v, rest, -, -, -, -, rfl⟩ :=
    extractHTTPHandlers_emitted_inv filePath fset n nd hn
  rfl

theorem extractGORMModels_emitted_type (filePath : String) (fset : token.FileSet)
    (l : List ast.Node) :
    ∀ nd ∈ l.flatMap (extractGORMModels.emitted filePath fset),
      nd.Type_ = "DatabaseModel" := by
  intro nd hnd
  obtain ⟨n, -, hn⟩ := List.mem_flatMap.mp hnd
  obtain ⟨Name, tp, s, o, Fields, -, -, -, rfl⟩ :=
    extractGORMModels_emitted_inv filePath fset n nd hn
  rfl

/-- C15: the nodes of a run's result are the nodes appended for the nodes of
the tree in pre-order by the closure of `extractHTTPHandlers`, all of type
Endpoint, followed by the nodes appended for the nodes of the tree in pre-order
by the closure of `extractGORMModels`, all of type DatabaseModel; nothing is
sorted or dropped, and every Endpoint node comes before every DatabaseModel
node wherever the constructs stand in the file. -/
theorem C15_endpoints_then_models_in_preorder (file : ast.Node) (filePath : String)
    (fset : token.FileSet) :
    (mainResult file filePath fset).Nodes =
        (ast.preorder file).flatMap (extractHTTPHandlers.emitted filePath fset) ++
          (ast.preorder file).flatMap (extractGORMModels.emitted filePath fset) ∧
    (∀ nd ∈ (ast.preorder file).flatMap (extractHTTPHandlers.emitted filePath fset),
      nd.Type_ = "Endpoint") ∧
    (∀ nd ∈ (ast.preorder file).flatMap (extractGORMModels.emitted filePath fset),
      nd.Type_ = "DatabaseModel") ∧
    (∀ (i j : Nat) (a b : Node), (mainResult file filePath fset).Nodes[i]? = some a →
      (mainResult file filePath fset).Nodes[j]? = some b →
      a.Type_ = "Endpoint" → b.Type_ = "DatabaseModel" → i < j) := by
  have htyE := extractHTTPHandlers_emitted_type filePath fset (ast.preorder file)
  have htyM := extractGORMModels_emitted_type filePath fset (ast.preorder file)
  refine ⟨by rw [mainResult_eq], htyE, htyM, fun i j a b hi hj ha hb => ?_⟩
  rw [mainResult_eq] at hi hj
  simp only at hi hj
  by_contra hij
  have hji : j ≤ i := Nat.le_of_not_lt hij
  by_cases hjlen : j < ((ast.preorder file).flatMap
      (extractHTTPHandlers.emitted filePath fset)).length
  · rw [List.getElem?_append_left hjlen] at hj
    have := htyE b (List.getElem?_mem hj)
    rw [this] at hb
    exact absurd hb (by decide)
  · have hilen : ((ast.preorder file).flatMap
        (extractHTTPHandlers.emitted filePath fset)).length ≤ i := by omega
    rw [List.getElem?_append_right hilen] at hi
    have := htyM a (List.getElem?_mem hi)
    rw [this] at ha
    exact absurd ha (by decide)

/-- C15 at a file that declares `User` before it calls `Router.GET("/users")`:
the Endpoint node still comes first. -/
theorem C15_endpoints_then_models_in_preorder_witness :
    (mainResult (Sample.file [Sample.userStruct, Sample.routerGET]) "a.go"
      Sample.oneLine).Nodes = [Sample.usersEndpoint, Sample.userNode] ∧
    0 < 1 :=
  ⟨by decide,
    (C15_endpoints_then_models_in_preorder (Sample.file [Sample.userStruct,
      Sample.routerGET]) "a.go" Sample.oneLine).2.2.2 0 1 Sample.usersEndpoint
      Sample.userNode (by decide) (by decide) rfl rfl⟩

/-- C16: the result is append-only.  After `extractHTTPHandlers`, and after
`extractGORMModels`, the nodes of the result are the nodes of the starting
result, unchanged and in the same order, followed by the appended nodes; both
functions are total. -/
theorem C16_append_only (file : ast.Node) (filePath : String) (fset : token.FileSet)
    (r : ExtractionResult) :
    (∃ appended : List Node,
      (extractHTTPHandlers file filePath fset r).Nodes = r.Nodes ++ appended) ∧
    (∃ appended : List Node,
      (extractGORMModels file filePath fset r).Nodes = r.Nodes ++ appended) ∧
    (∃ appended : List Node,
      (extractGORMModels file filePath fset (extractHTTPHandlers file filePath fset r)).Nodes
        = (extractHTTPHandlers file filePath fset r).Nodes ++ appended) := by
  exact ⟨⟨_, congrArg ExtractionResult.Nodes (extractHTTPHandlers_eq file filePath fset r)⟩,
    ⟨_, congrArg ExtractionResult.Nodes (extractGORMModels_eq file filePath fset r)⟩,
    ⟨_, congrArg ExtractionResult.Nodes (extractGORMModels_eq file filePath fset _)⟩⟩

theorem extractHTTPHandlers_emitted_conditions (filePath : String) (fset : token.FileSet)
    (n : ast.Node) (h : routeConditions n = true) :
    ∃ nd : Node, extractHTTPHandlers.emitted filePath fset n = [nd] := by
  unfold routeConditions at h
  split at h
  · rename_i X Sel p k v rest
    simp only [Bool.and_eq_true, decide_eq_true_eq, List.any_eq_true] at h
    obtain ⟨hname, c, hc, hcq⟩ := h
    have hv : strings.Trim v "\"" ≠ "" := by
      rw [Ne, strings.Trim_eq_empty_iff]
      intro hall
      have := hall c hc
      simp at this hcq
      exact hcq this
    exact ⟨_, extractHTTPHandlers_emitted_route filePath fset X Sel p k v rest hname hv⟩
  · exact absurd h (by decide)

theorem extractHTTPHandlers_emitted_count (filePath : String) (fset : token.FileSet)
    (l : List ast.Node) :
    (l.flatMap (extractHTTPHandlers.emitted filePath fset)).length
      = (l.filter routeConditions).length := by
  induction l with
  | nil => rfl
  | cons a l ih =>
    rw [List.flatMap_cons, List.length_append, ih]
    cases h : routeConditions a with
    | true =>
      obtain ⟨nd, hnd⟩ := extractHTTPHandlers_emitted_conditions filePath fset a h
      rw [hnd, List.filter_cons_of_pos h]
      simp [Nat.add_comm]
    | false =>
      rw [extractHTTPHandlers_emitted_not_conditions filePath fset a h,
        List.filter_cons_of_neg (by simp [h])]
      simp

/-- C17: `extractHTTPHandlers` appends as many nodes as the tree has nodes, at
any depth, that satisfy the route conditions, one node for each of them and
none for any other node; for the nested registration
`r.GET("/a", r.POST("/b", h))` it gives two nodes, the outer one first. -/
theorem C17_one_endpoint_per_route_call (file : ast.Node) (filePath : String)
    (fset : token.FileSet) (r : ExtractionResult) :
    (extractHTTPHandlers file filePath fset r).Nodes.length
      = r.Nodes.length + ((ast.preorder file).filter routeConditions).length ∧
    (extractHTTPHandlers file filePath fset r).Nodes
      = r.Nodes ++ (ast.preorder file).flatMap (extractHTTPHandlers.emitted filePath fset) ∧
    (∀ n : ast.Node, routeConditions n = true →
      ∃ nd : Node, nd.Type_ = "Endpoint" ∧
        extractHTTPHandlers.emitted filePath fset n = [nd]) ∧
    (∀ n : ast.Node, routeConditions n = false →
      extractHTTPHandlers.emitted filePath fset n = []) ∧
    (extractHTTPHandlers (Sample.file [Sample.nestedGET]) "a.go" Sample.oneLine
        Sample.empty).Nodes.map (fun nd => (nd.Type_, nd.Method, nd.Path))
      = [("Endpoint", "GET", "/a"), ("Endpoint", "POST", "/b")] := by
  refine ⟨?_, ?_, fun n h => ?_, fun n h => ?_, by decide⟩
  · rw [extractHTTPHandlers_eq]
    simp only [List.length_append, extractHTTPHandlers_emitted_count]
  · rw [extractHTTPHandlers_eq]
  · obtain ⟨nd, hnd⟩ := extractHTTPHandlers_emitted_conditions filePath fset n h
    refine ⟨nd, ?_, hnd⟩
    exact extractHTTPHandlers_emitted_type filePath fset [n] nd (by simp [hnd])
  · exact extractHTTPHandlers_emitted_not_conditions filePath fset n h

/-- C17 at `Router.GET("/users")` and at `Router.GET(pathVar)`: one node for
the first, none for the second. -/
theorem C17_one_endpoint_per_route_call_witness :
    (∃ nd : Node, nd.Type_ = "Endpoint" ∧
      extractHTTPHandlers.emitted "a.go" Sample.oneLine Sample.routerGET = [nd]) ∧
    extractHTTPHandlers.emitted "a.go" Sample.oneLine Sample.routerGETvar = [] :=
  ⟨(C17_one_endpoint_per_route_call (Sample.file [Sample.routerGET]) "a.go" Sample.oneLine
      Sample.empty).2.2.1 Sample.routerGET (by decide),
    (C17_one_endpoint_per_route_call (Sample.file [Sample.routerGET]) "a.go" Sample.oneLine
      Sample.empty).2.2.2.1 Sample.routerGETvar (by decide)⟩

/-! ## C18-C20: edge cases and metadata -/

theorem extractGORMModels_columns_no_names (Fields : List ast.Field)
    (h : ∀ fld ∈ Fields, fld.Names = []) (columns : List String) :
    extractGORMModels.columns Fields columns = columns := by
  induction Fields generalizing columns with
  | nil => rfl
  | cons fld rest ih =>
    have h0 : fld.Names = [] := h fld (List.mem_cons_self _ _)
    unfold extractGORMModels.columns
    rw [h0]
    exact ih (fun f hf => h f (List.mem_cons_of_mem _ hf)) columns

/-- C18: a struct type declaration that embeds `gorm.Model` and has no named
field is not skipped: the closure of `extractGORMModels` appends exactly one
DatabaseModel node for it, with an empty columns list, and for a declaration
of the tree that node is in the result. -/
theorem C18_model_without_named_fields (file : ast.Node) (filePath : String)
    (fset : token.FileSet) (r : ExtractionResult) (Name : ast.Ident)
    (tp : Option ast.Node) (s o : token.Pos) (Fields : List ast.Field)
    (hembed : Fields.any isGormModelEmbedding = true)
    (hnames : ∀ fld ∈ Fields, fld.Names = []) :
    ∃ nd : Node, nd.Type_ = "DatabaseModel" ∧ nd.Columns = some [] ∧
      (∀ r' : ExtractionResult,
        extractGORMModels.visit filePath fset r'
            (some (.TypeSpec Name tp (.StructType s o Fields)))
          = ({ r' with Nodes := r'.Nodes ++ [nd] }, true)) ∧
      (ast.Node.TypeSpec Name tp (.StructType s o Fields) ∈ ast.preorder file →
        nd ∈ (extractGORMModels file filePath fset r).Nodes) := by
  have hem := extractGORMModels_emitted_model filePath fset Name tp s o Fields hembed
  rw [extractGORMModels_columns_no_names Fields hnames] at hem
  obtain ⟨nd, hem, hty, hcol⟩ : ∃ nd : Node,
      extractGORMModels.emitted filePath fset (.TypeSpec Name tp (.StructType s o Fields))
        = [nd] ∧ nd.Type_ = "DatabaseModel" ∧ nd.Columns = some [] := ⟨_, hem, rfl, rfl⟩
  refine ⟨nd, hty, hcol, fun r' => ?_, fun hin => ?_⟩
  · rw [extractGORMModels_visit_eq, hem]
  · exact extractGORMModels_mem_of_emitted file filePath fset r _ nd hin (by simp [hem])

/-- C18 at `type Base struct { gorm.Model }`: one DatabaseModel node with no
columns. -/
theorem C18_model_without_named_fields_witness :
    ∃ nd : Node, nd.Type_ = "DatabaseModel" ∧ nd.Columns = some [] ∧
      (∀ r' : ExtractionResult,
        extractGORMModels.visit "a.go" Sample.oneLine r' (some Sample.baseStruct)
          = ({ r' with Nodes := r'.Nodes ++ [nd] }, true)) ∧
      (Sample.baseStruct ∈ ast.preorder (Sample.file [Sample.baseStruct]) →
        nd ∈ (extractGORMModels (Sample.file [Sample.baseStruct]) "a.go" Sample.oneLine
          Sample.empty).Nodes) :=
  C18_model_without_named_fields (Sample.file [Sample.baseStruct]) "a.go" Sample.oneLine
    Sample.empty ⟨6, "Base"⟩ none 11 18 [Sample.gormModel 20] (by decide)
    (by decide)

/-- C19: every Endpoint node of a run's result has a non-empty path; a call
whose first argument is a literal whose text is empty once its leading and
trailing double quotes are stripped makes the closure of `extractHTTPHandlers`
append nothing, whatever its callee; the text of the empty string literal is
such a text. -/
theorem C19_endpoint_path_not_empty (file : ast.Node) (filePath : String)
    (fset : token.FileSet) :
    (∀ nd ∈ (mainResult file filePath fset).Nodes, nd.Type_ = "Endpoint" → nd.Path ≠ "") ∧
    (∀ (X : ast.Node) (Sel : ast.Ident) (p : token.Pos) (k : token.Token) (v : String)
        (rest : List ast.Node) (r' : ExtractionResult),
      strings.Trim v "\"" = "" →
      extractHTTPHandlers.visit filePath fset r'
        (some (.CallExpr (.SelectorExpr X Sel) (.BasicLit p k v :: rest))) = (r', true)) ∧
    strings.Trim "\"\"" "\"" = "" := by
  refine ⟨fun nd hnd hty => ?_, fun X Sel p k v rest r' hv => ?_, by decide⟩
  · rcases mainResult_mem_cases file filePath fset nd hnd with ⟨n, -, hn⟩ | ⟨n, -, hn⟩
    · obtain ⟨X, Sel, p, k, v, rest, -, -, hv, -, rfl⟩ :=
        extractHTTPHandlers_emitted_inv filePath fset n nd hn
      exact hv
    · obtain ⟨Name, tp, s, o, Fields, -, -, -, rfl⟩ :=
        extractGORMModels_emitted_inv filePath fset n nd hn
      simp at hty
  · rw [extractHTTPHandlers_visit_eq,
      extractHTTPHandlers_emitted_trim_empty filePath fset X Sel p k v rest hv]
    simp

/-- C19 at `Router.GET("")`: nothing is appended; and the path `/users` of the
node of `Router.GET("/users")` is not empty. -/
theorem C19_endpoint_path_not_empty_witness :
    extractHTTPHandlers.visit "a.go" Sample.oneLine Sample.empty (some Sample.routerGETempty)
      = (Sample.empty, true) ∧
    Sample.usersEndpoint.Path ≠ "" :=
  ⟨(C19_endpoint_path_not_empty (Sample.file [Sample.routerGETempty]) "a.go"
      Sample.oneLine).2.1 (.Ident ⟨1, "Router"⟩) ⟨8, "GET"⟩ 12 .STRING "\"\"" []
      Sample.empty (by decide),
    (C19_endpoint_path_not_empty (Sample.file [Sample.routerGET]) "a.go" Sample.oneLine).1
      Sample.usersEndpoint (by decide) rfl⟩

/-- C20: the metadata of every node of a run's result is the single entry
`framework`: `Go HTTP` for every Endpoint node, whichever name of the
vocabulary its call has, and `GORM` for every DatabaseModel node. -/
theorem C20_metadata_framework (file : ast.Node) (filePath : String)
    (fset : token.FileSet) :
    ∀ nd ∈ (mainResult file filePath fset).Nodes,
      (nd.Type_ = "Endpoint" ∧ nd.Metadata = [("framework", "Go HTTP")]) ∨
      (nd.Type_ = "DatabaseModel" ∧ nd.Metadata = [("framework", "GORM")]) := by
  intro nd hnd
  rcases mainResult_mem_cases file filePath fset nd hnd with ⟨n, -, hn⟩ | ⟨n, -, hn⟩
  · obtain ⟨X, Sel, p, k, v, rest, -, -, -, -, rfl⟩ :=
      extractHTTPHandlers_emitted_inv filePath fset n nd hn
    exact Or.inl ⟨rfl, rfl⟩
  · obtain ⟨Name, tp, s, o, Fields, -, -, -, rfl⟩ :=
      extractGORMModels_emitted_inv filePath fset n nd hn
    exact Or.inr ⟨rfl, rfl⟩

/-- C20 at `http.HandleFunc("/", h)`: the Endpoint node carries the framework
`Go HTTP`. -/
theorem C20_metadata_framework_witness :
    (Sample.rootEndpoint.Type_ = "Endpoint" ∧
      Sample.rootEndpoint.Metadata = [("framework", "Go HTTP")]) ∨
    (Sample.rootEndpoint.Type_ = "DatabaseModel" ∧
      Sample.rootEndpoint.Metadata = [("framework", "GORM")]) :=
  C20_metadata_framework (Sample.file [Sample.handleFunc]) "a.go" Sample.oneLine
    Sample.rootEndpoint (by decide)
